import Mathlib

/-!
BattleEngine: a shallow embedding of `src/mnt/data/BattleEngine.js`.

The engine mutates one shared battle record in place.  Here every operation is a
function from the record (and its other inputs) to the new record and outputs.

* Numbers are integers (`Int`); a field that may be `undefined` is an `Option`.
  Stats that are no numbers at all, for which the code computes `NaN`, are followed
  separately under `Js`, on `_readStats` and on the hp computation of `processAttack`.
* `Math.random()` is a stream `rand : Nat → ℚ` of future draws (`rand 0` is the next
  one); each operation reports how many draws it consumed.
* `find` returns the first player with the given id and the mutation of the found
  object becomes a rewrite of that first list entry.
-/

namespace BattleEngine

/-! ## Data model -/

/-- Team ids: the strings `'A'` and `'B'`. -/
inductive Team where
  | A
  | B
deriving DecidableEq, Repr

/-- Raw stat block `p.stats`; each entry may be missing. -/
structure Stats where
  attack : Option Int
  defense : Option Int
  agility : Option Int
  luck : Option Int
deriving DecidableEq, Repr

/-- Result of `_readStats`: the four clamped values. -/
structure ReadStats where
  attack : Int
  defense : Int
  agility : Int
  luck : Int
deriving DecidableEq, Repr

/-- Item counts `p.items`; each entry may be missing. -/
structure Items where
  dittany : Option Int
  attack_boost : Option Int
  defense_boost : Option Int
deriving DecidableEq, Repr

/-- Player object.  The four flags are `undefined` (read as `false`) until set. -/
structure Player where
  id : Nat
  name : String
  team : Team
  hp : Int
  maxHp : Option Int
  stats : Option Stats
  items : Option Items
  _defend : Bool
  _dodgeReady : Bool
  _atkBoost : Bool
  _defBoost : Bool
deriving DecidableEq, Repr

/-- Log entry `{type, message}`. -/
structure LogEntry where
  type : String
  message : String
deriving DecidableEq, Repr

/-- The object `turn.acted`: one set of player ids per team. -/
structure Acted where
  A : Finset Nat
  B : Finset Nat
deriving DecidableEq

/-- The object `battle.turn`. -/
structure Turn where
  order : List Team
  phaseIndex : Nat
  round : Int
  acted : Acted
deriving DecidableEq

/-- Battle record as it stands once the constructor has run. -/
structure Battle where
  players : Option (List Player)
  currentTeam : Option Team
  turn : Turn
  maxTurns : Int
  timeLeft : Int
  logs : List LogEntry
  lastAttackerTeam : Option Team
  firstTeam : Option Team
deriving DecidableEq

/-- Update delta `updates`: `hp` is absent until the first hp change is recorded. -/
structure Updates where
  hp : Option (Nat → Option Int)

/-- What `processAttack` and `processItem` leave behind: the return value, the record,
the log sequence and delta of the caller, and the number of `Math.random()` draws made. -/
structure Outcome where
  ok : Bool
  battle : Battle
  logs : List LogEntry
  updates : Updates
  used : Nat

/-- What `processDefend`, `processPass` and `processDodge` leave behind; they take no
delta and draw no random number. -/
structure Effect where
  ok : Bool
  battle : Battle
  logs : List LogEntry

/-- Return value of `advancePhase`. -/
structure PhaseResult where
  phaseComplete : Bool
  turnComplete : Bool
deriving DecidableEq, Repr

/-- Return value of `getBattleStats`. -/
structure BattleStats where
  round : Int
  phase : Team
  activeTeam : Option Team
  timeLeft : Int
deriving DecidableEq, Repr

/-- The object `turn.acted` as handed to the constructor: a team's set may be missing. -/
structure RawActed where
  A : Option (Finset Nat)
  B : Option (Finset Nat)

/-- The object `battle.turn` as handed to the constructor. -/
structure RawTurn where
  order : List Team
  phaseIndex : Nat
  round : Int
  acted : RawActed

/-- Battle record as handed to the constructor, before the defaults are filled in. -/
structure RawBattle where
  players : Option (List Player)
  currentTeam : Option Team
  turn : Option RawTurn
  maxTurns : Option Int
  timeLeft : Option Int
  logs : Option (List LogEntry)
  lastAttackerTeam : Option Team
  firstTeam : Option Team

/-! ## Utilities -/

/-- JS `_randD20`, as a function of the `Math.random()` draw it makes. -/
def _randD20 (u : ℚ) : Int := ⌊u * 20⌋ + 1

/-- JS `_clamp(n,min,max)`. -/
def _clamp (n min max : Int) : Int := Max.max min (Min.min max n)

/-- JS `Number(x||0)`, and `(x||0)`, for a possibly missing integer; `Js.numberOr0` covers
a value that is not a number. -/
def numOr0 (x : Option Int) : Int := x.getD 0

/-- JS `p?.stats||{}`: every entry is missing when there is no block. -/
def statsOf (p : Player) : Stats := p.stats.getD ⟨none, none, none, none⟩

/-- JS `_readStats(p)`. -/
def _readStats (p : Player) : ReadStats :=
  let s : Stats := statsOf p
  { attack := _clamp (numOr0 s.attack) 1 5
    defense := _clamp (numOr0 s.defense) 1 5
    agility := _clamp (numOr0 s.agility) 1 5
    luck := _clamp (numOr0 s.luck) 1 5 }

/-- JS `this.battle.players||[]`. -/
def playersOf (b : Battle) : List Player := b.players.getD []

/-- JS `(this.battle.players||[]).find(p=>p.id===id)`. -/
def findPlayer (b : Battle) (id : Nat) : Option Player :=
  (playersOf b).find? (fun p => decide (p.id = id))

/-- JS `find` with an id that may be `undefined`. -/
def findPlayer? (b : Battle) (id : Option Nat) : Option Player :=
  match id with
  | some i => findPlayer b i
  | none => none

/-- In-place mutation of the object `find` returned: rewrite the first entry with that id. -/
def modifyFirst (ps : List Player) (id : Nat) (f : Player → Player) : List Player :=
  match ps with
  | [] => []
  | p :: rest => if p.id = id then f p :: rest else p :: modifyFirst rest id f

/-- Mutation of the found player inside the battle record. -/
def mutatePlayer (b : Battle) (id : Nat) (f : Player → Player) : Battle :=
  { b with players := b.players.map (fun ps => modifyFirst ps id f) }

/-- JS `getAlivePlayersInTeam(team)`. -/
def getAlivePlayersInTeam (b : Battle) (team : Option Team) : List Player :=
  (playersOf b).filter (fun p => decide (some p.team = team) && decide (p.hp > 0))

/-- JS `getCurrentActiveTeam()`. -/
def getCurrentActiveTeam (b : Battle) : Option Team := b.currentTeam

/-- JS `updates.hp = updates.hp || {}; updates.hp[id] = v`. -/
def Updates.setHp (u : Updates) (id : Nat) (v : Int) : Updates :=
  { hp := some (fun k => if k = id then some v else (u.hp.getD (fun _ => none)) k) }

/-- JS `updates.hp[id]`, `none` when the key or the whole `hp` map is absent. -/
def Updates.getHp (u : Updates) (id : Nat) : Option Int :=
  match u.hp with
  | some m => m id
  | none => none

/-- The critical marker of a damage message. -/
def critMarker : String := " (치명타!)"

/-- JS `isCrit ? ' (치명타!)' : ''`. -/
def critTxt (isCrit : Bool) : String := if isCrit then critMarker else ""

/-! ## Actions -/

/-- JS `processAttack(actorId, targetId, logs, updates)`. -/
def processAttack (rand : Nat → ℚ) (b : Battle) (actorId targetId : Nat)
    (logs : List LogEntry) (updates : Updates) : Outcome :=
  match findPlayer b actorId, findPlayer b targetId with
  | some a, some t =>
    if a.team = t.team then
      ⟨false, b, logs ++ [⟨"error", "같은 팀은 공격할 수 없습니다"⟩], updates, 0⟩
    else if t.hp ≤ 0 then
      ⟨false, b, logs ++ [⟨"error", "쓰러진 대상은 공격할 수 없습니다"⟩], updates, 0⟩
    else
      let sa := _readStats a
      let st := _readStats t
      let atkRoll := sa.attack + _randD20 (rand 0)
      let evadeRoll := st.agility + _randD20 (rand 1)
      if evadeRoll ≥ atkRoll then
        ⟨true, b, logs ++ [⟨"combat", a.name ++ "의 공격을 " ++ t.name ++ "이(가) 완전회피!"⟩],
          updates, 2⟩
      else
        let isCrit : Bool := decide (((_randD20 (rand 2) : Int) : ℚ) ≥ 20 - (sa.luck : ℚ) / 2)
        let targetDefend : Bool := t._defend
        let attackRoll2 := sa.attack + _randD20 (rand 3)
        let defenseRoll := st.defense + (if targetDefend then _randD20 (rand 4) else 0)
        let dmg0 := attackRoll2 - defenseRoll
        let dmg1 := if targetDefend then Max.max 0 dmg0 else Max.max 1 dmg0
        let dmg := if isCrit then dmg1 * 2 else dmg1
        let hp := Max.max 0 (t.hp - dmg)
        let b1 := mutatePlayer b t.id (fun p =>
          { p with hp := hp, _defend := if targetDefend then false else p._defend })
        let logs1 := logs ++ [⟨"combat",
          a.name ++ "가 " ++ t.name ++ "에게 " ++ toString dmg ++ " 피해를 입혔습니다" ++ critTxt isCrit⟩]
        let logs2 := if hp ≤ 0 then logs1 ++ [⟨"combat", t.name ++ " 전투불능!"⟩] else logs1
        ⟨true, { b1 with lastAttackerTeam := some a.team }, logs2, updates.setHp t.id hp,
          if targetDefend then 5 else 4⟩
  | _, _ => ⟨false, b, logs ++ [⟨"error", "대상 오류"⟩], updates, 0⟩

/-- JS `processDefend(actorId, logs)`. -/
def processDefend (b : Battle) (actorId : Nat) (logs : List LogEntry) : Effect :=
  match findPlayer b actorId with
  | none => ⟨false, b, logs⟩
  | some a =>
    ⟨true, mutatePlayer b actorId (fun p => { p with _defend := true }),
      logs ++ [⟨"combat", a.name ++ " 방어 태세! 다음 1회 피격 방어 강화"⟩]⟩

/-- JS `processPass(actorId, logs)`. -/
def processPass (b : Battle) (actorId : Nat) (logs : List LogEntry) : Effect :=
  match findPlayer b actorId with
  | none => ⟨false, b, logs⟩
  | some a => ⟨true, b, logs ++ [⟨"system", a.name ++ " 패스"⟩]⟩

/-- JS `processDodge(actorId, logs)`. -/
def processDodge (b : Battle) (actorId : Nat) (logs : List LogEntry) : Effect :=
  match findPlayer b actorId with
  | none => ⟨false, b, logs⟩
  | some a =>
    ⟨true, mutatePlayer b actorId (fun p => { p with _dodgeReady := true }),
      logs ++ [⟨"combat", a.name ++ " 회피 대기"⟩]⟩

/-- The literal `{ dittany:0, attack_boost:0, defense_boost:0 }`. -/
def defaultItems : Items := ⟨some 0, some 0, some 0⟩

/-- JS `target.maxHp||100`. -/
def maxHpOr100 (p : Player) : Int :=
  match p.maxHp with
  | some m => if m = 0 then 100 else m
  | none => 100

/-- JS `t && t.team===a.team ? t : a`, the recipient of a dittany. -/
def healTarget (t : Option Player) (a : Player) : Player :=
  match t with
  | some t => if t.team = a.team then t else a
  | none => a

/-- JS `processItem(actorId, itemType, targetId, logs, updates)`.  The count is decremented
only behind the guard `(count||0) <= 0`, so a missing count is never decremented. -/
def processItem (rand : Nat → ℚ) (b : Battle) (actorId : Nat) (itemType : String)
    (targetId : Option Nat) (logs : List LogEntry) (updates : Updates) : Outcome :=
  match findPlayer b actorId with
  | none => ⟨false, b, logs, updates, 0⟩
  | some a0 =>
    -- a.items = a.items || {...}
    let b1 := mutatePlayer b actorId (fun p => { p with items := some (p.items.getD defaultItems) })
    let items := a0.items.getD defaultItems
    let a : Player := { a0 with items := some items }
    let t := findPlayer? b1 targetId
    if itemType = "dittany" then
      let target : Player := healTarget t a
      if numOr0 items.dittany ≤ 0 then
        ⟨false, b1, logs ++ [⟨"error", "디터니가 없습니다"⟩], updates, 0⟩
      else
        let b2 := mutatePlayer b1 actorId (fun p =>
          { p with items := p.items.map (fun it => { it with dittany := it.dittany.map (· - 1) }) })
        let hp := Min.min (maxHpOr100 target) (target.hp + 10)
        let b3 := mutatePlayer b2 target.id (fun p => { p with hp := hp })
        ⟨true, b3, logs ++ [⟨"heal", target.name ++ " HP 10 회복"⟩], updates.setHp target.id hp, 0⟩
    else if itemType = "attack_boost" then
      if numOr0 items.attack_boost ≤ 0 then
        ⟨false, b1, logs ++ [⟨"error", "공격 보정기가 없습니다"⟩], updates, 0⟩
      else
        let b2 := mutatePlayer b1 actorId (fun p =>
          { p with items := p.items.map (fun it =>
              { it with attack_boost := it.attack_boost.map (· - 1) }) })
        if rand 0 < 1 / 10 then
          ⟨true, mutatePlayer b2 actorId (fun p => { p with _atkBoost := true }),
            logs ++ [⟨"system", "공격 보정기 성공: 다음 공격 2배"⟩], updates, 1⟩
        else
          ⟨true, b2, logs ++ [⟨"system", "공격 보정기 실패: 아이템 소모됨"⟩], updates, 1⟩
    else if itemType = "defense_boost" then
      if numOr0 items.defense_boost ≤ 0 then
        ⟨false, b1, logs ++ [⟨"error", "방어 보정기가 없습니다"⟩], updates, 0⟩
      else
        let b2 := mutatePlayer b1 actorId (fun p =>
          { p with items := p.items.map (fun it =>
              { it with defense_boost := it.defense_boost.map (· - 1) }) })
        if rand 0 < 1 / 10 then
          ⟨true, mutatePlayer b2 actorId (fun p => { p with _defBoost := true }),
            logs ++ [⟨"system", "방어 보정기 성공: 다음 피격 방어 2배"⟩], updates, 1⟩
        else
          ⟨true, b2, logs ++ [⟨"system", "방어 보정기 실패: 아이템 소모됨"⟩], updates, 1⟩
    else
      ⟨false, b1, logs ++ [⟨"error", "알 수 없는 아이템"⟩], updates, 0⟩

/-! ## Turn tracking -/

/-- JS `turn.acted[team]`. -/
def Acted.get (a : Acted) (team : Team) : Finset Nat :=
  match team with
  | Team.A => a.A
  | Team.B => a.B

/-- JS `turn.acted[team] = s`. -/
def Acted.set (a : Acted) (team : Team) (s : Finset Nat) : Acted :=
  match team with
  | Team.A => { a with A := s }
  | Team.B => { a with B := s }

/-- JS `recordPlayerAction(playerId)`; both sets exist, so `|| new Set()` is never taken. -/
def recordPlayerAction (b : Battle) (playerId : Nat) : Battle :=
  match findPlayer b playerId with
  | none => b
  | some p =>
    let acted := b.turn.acted.get p.team
    { b with turn := { b.turn with acted := b.turn.acted.set p.team (insert p.id acted) } }

/-- JS `this.battle.turn.acted[team] || new Set()`, for a team that may be `undefined`. -/
def actedOf (b : Battle) (team : Option Team) : Finset Nat :=
  match team with
  | some t => b.turn.acted.get t
  | none => ∅

/-- JS `advancePhase()`.  `turn.order[i]` is `undefined` past the end of the array. -/
def advancePhase (b : Battle) : Battle × PhaseResult :=
  let team := getCurrentActiveTeam b
  let aliveIds := (getAlivePlayersInTeam b team).map (fun p => p.id)
  let acted : Finset Nat := actedOf b team
  let turnComplete : Bool := aliveIds.all (fun id => decide (id ∈ acted))
  if turnComplete then
    let phaseIndex := b.turn.phaseIndex + 1
    let newTeam := b.turn.order[phaseIndex % 2]?
    let turn1 : Turn := { b.turn with phaseIndex := phaseIndex }
    let turn2 : Turn :=
      if phaseIndex % 2 = 0 then
        { turn1 with round := turn1.round + 1, acted := ⟨∅, ∅⟩, order := turn1.order.reverse }
      else turn1
    ({ b with turn := turn2, currentTeam := newTeam, timeLeft := 300 }, ⟨true, true⟩)
  else
    (b, ⟨false, false⟩)

/-- JS `getBattleStats()`. -/
def getBattleStats (b : Battle) : BattleStats :=
  { round := b.turn.round
    phase := if b.turn.phaseIndex % 2 = 0 then Team.A else Team.B
    activeTeam := b.currentTeam
    timeLeft := b.timeLeft }

/-- The constructor: fills in the fields the record lacks. -/
def constructor (raw : RawBattle) : Battle :=
  let maxTurns : Int :=
    match raw.maxTurns with
    | some m => if m = 0 then 100 else m
    | none => 100
  let turn : Turn :=
    match raw.turn with
    | some t => ⟨t.order, t.phaseIndex, t.round, ⟨t.acted.A.getD ∅, t.acted.B.getD ∅⟩⟩
    | none => ⟨[Team.A, Team.B], 0, 1, ⟨∅, ∅⟩⟩
  let currentTeam : Option Team :=
    match raw.currentTeam with
    | some c => some c
    | none => turn.order[turn.phaseIndex % 2]?
  { players := raw.players
    currentTeam := currentTeam
    turn := turn
    maxTurns := maxTurns
    timeLeft := raw.timeLeft.getD 300
    logs := raw.logs.getD []
    lastAttackerTeam := raw.lastAttackerTeam
    firstTeam := raw.firstTeam }

/-! ## Win evaluation -/

/-- JS `isBattleOver()`. -/
def isBattleOver (b : Battle) : Bool :=
  let aAlive := (getAlivePlayersInTeam b (some Team.A)).length
  let bAlive := (getAlivePlayersInTeam b (some Team.B)).length
  if aAlive = 0 ∨ bAlive = 0 then true
  else if b.turn.round > b.maxTurns then true
  else false

/-- The local `sum(team)` of `determineWinner`: hp of all members of the team. -/
def hpSum (b : Battle) (team : Team) : Int :=
  ((playersOf b).filter (fun p => decide (p.team = team))).foldl (fun s p => s + p.hp) 0

/-- The local `agiSum(team)` of `determineWinner`. -/
def agiSum (b : Battle) (team : Team) : Int :=
  ((playersOf b).filter (fun p => decide (p.team = team))).foldl
    (fun s p => s + (_readStats p).agility) 0

/-- JS `determineWinner()`. -/
def determineWinner (b : Battle) : Team :=
  let aAlive := (getAlivePlayersInTeam b (some Team.A)).length
  let bAlive := (getAlivePlayersInTeam b (some Team.B)).length
  if aAlive ≠ bAlive then (if aAlive > bAlive then Team.A else Team.B)
  else
    let hpA := hpSum b Team.A
    let hpB := hpSum b Team.B
    if hpA ≠ hpB then (if hpA > hpB then Team.A else Team.B)
    else
      match b.lastAttackerTeam with
      | some l => l
      | none =>
        match b.currentTeam with
        | some c => c
        | none =>
          -- firstTeam || turn?.order?.[0] || 'A'
          let first : Option Team :=
            (b.firstTeam.orElse (fun _ => b.turn.order[0]?)).orElse (fun _ => some Team.A)
          match first with
          | some f => f
          | none =>
            let agA := agiSum b Team.A
            let agB := agiSum b Team.B
            if agA ≠ agB then (if agA > agB then Team.A else Team.B)
            else Team.A

/-! ## The specification's wording, and concrete battles -/

/-- Damage of a connecting attack as the specification words it: raw damage is the second
attack roll minus the defense roll, clamped below by 0 for a defending target and by 1
otherwise, and doubled on a critical roll `r3 >= 20 - luck/2`. -/
def specAttackDamage (sa st : ReadStats) (defending : Bool) (r3 r4 r5 : Int) : Int :=
  let raw := (sa.attack + r4) - (st.defense + (if defending then r5 else 0))
  let clamped := if defending then Max.max 0 raw else Max.max 1 raw
  if (r3 : ℚ) ≥ 20 - (sa.luck : ℚ) / 2 then 2 * clamped else clamped

/-- Clamping of one stat as the specification words it: the value lies in `[1,5]`, is the
raw value when that is an integer of `[1,5]`, is 1 when the raw value is absent, 0 or
below 1, and is 5 when the raw value is above 5. -/
def specClamped (raw : Option Int) (v : Int) : Prop :=
  (1 ≤ v ∧ v ≤ 5)
  ∧ (∀ n, raw = some n → 1 ≤ n → n ≤ 5 → v = n)
  ∧ (raw = none → v = 1)
  ∧ (∀ n, raw = some n → n < 1 → v = 1)
  ∧ (∀ n, raw = some n → 5 < n → v = 5)

/-- A player's hp lies between 0 and a positive integer `maxHp`. -/
def hpInRange (p : Player) : Prop :=
  ∃ m : Int, p.maxHp = some m ∧ 0 < m ∧ 0 ≤ p.hp ∧ p.hp ≤ m

/-- Every player of the battle has its hp in range. -/
def hpInvariant (b : Battle) : Prop := ∀ p ∈ playersOf b, hpInRange p

/-- A fresh player: 100 of 100 hp, no items, no flag set. -/
def mkPlayer (id : Nat) (name : String) (team : Team) (stats : Option Stats) : Player :=
  { id := id, name := name, team := team, hp := 100, maxHp := some 100, stats := stats,
    items := none, _defend := false, _dodgeReady := false, _atkBoost := false,
    _defBoost := false }

/-- The record the constructor builds around a roster when every other field is missing. -/
def freshBattle (players : List Player) : Battle :=
  constructor ⟨some players, none, none, none, none, none, none, none⟩

/-- Attacker of the damage scenario: team A, attack 5, luck 1. -/
def duelAttacker : Player := mkPlayer 1 "Ann" Team.A (some ⟨some 5, some 1, some 1, some 1⟩)

/-- Target of the damage scenario: team B, agility 1, defense 1, not defending, hp 100. -/
def duelTarget : Player := mkPlayer 2 "Bob" Team.B (some ⟨some 1, some 1, some 1, some 1⟩)

/-- The battle of the damage scenario. -/
def duel : Battle := freshBattle [duelAttacker, duelTarget]

/-- A random source whose every draw makes `_randD20` roll 20. -/
def always20 : Nat → ℚ := fun _ => 19 / 20

/-- A random source whose draws alternate: the attack rolls are 1 and the evade roll is 20. -/
def lowHigh : Nat → ℚ := fun i => if i % 2 = 0 then 0 else 19 / 20

/-- The damage scenario's battle with team B active. -/
def duelB : Battle := { duel with currentTeam := some Team.B }

/-- Four living members of team A who have all acted, and one living member of team B,
the active team, who has not. -/
def fourVsOne : Battle :=
  { freshBattle [mkPlayer 1 "Ann" Team.A none, mkPlayer 2 "Amy" Team.A none,
      mkPlayer 3 "Abe" Team.A none, mkPlayer 4 "Ada" Team.A none,
      mkPlayer 5 "Bob" Team.B none] with
    currentTeam := some Team.B
    turn := ⟨[Team.A, Team.B], 1, 1, ⟨{1, 2, 3, 4}, ∅⟩⟩ }

/-- The battle `fourVsOne` once Bob has acted too. -/
def fourVsOneActed : Battle := recordPlayerAction fourVsOne 5

/-- The damage scenario's battle after three completed phases: in each, the one living
member of the active team acts, is recorded, and the phase is advanced. -/
def duelAfterThreePhases : Battle :=
  let s1 := (advancePhase (recordPlayerAction duel 1)).1
  let s2 := (advancePhase (recordPlayerAction s1 2)).1
  (advancePhase (recordPlayerAction s2 1)).1

/-- The damage scenario's battle after two completed phases. -/
def duelAfterTwoPhases : Battle :=
  let s1 := (advancePhase (recordPlayerAction duel 1)).1
  (advancePhase (recordPlayerAction s1 2)).1

/-- Two players of team A and one of team B. -/
def trio : Battle :=
  freshBattle [mkPlayer 1 "Ann" Team.A none, mkPlayer 3 "Amy" Team.A none,
    mkPlayer 2 "Bob" Team.B none]

/-! ## Positions, item counts and call sequences -/

/-- The player at position `k` of the player list. -/
def playerAt (b : Battle) (k : Nat) : Option Player := (playersOf b)[k]?

/-- The position at which `find` stops for an id: that of the first player carrying it. -/
def playerIndex (b : Battle) (id : Nat) : Nat :=
  (playersOf b).findIdx (fun p => decide (p.id = id))

/-- The count of an item on a player as the guards of `processItem` read it,
`(a.items.x||0)` with a missing block or entry counting as 0. -/
def itemCount (p : Player) (itemType : String) : Int :=
  let it := p.items.getD defaultItems
  if itemType = "dittany" then numOr0 it.dittany
  else if itemType = "attack_boost" then numOr0 it.attack_boost
  else if itemType = "defense_boost" then numOr0 it.defense_boost
  else 0

/-- The recipient of a dittany as the specification words it, on the record before the
call: the player named by `targetId` when it exists and is on the actor's team, the actor
otherwise. -/
def specRecipient (b : Battle) (actor : Player) (targetId : Option Nat) : Player :=
  match findPlayer? b targetId with
  | some t => if t.team = actor.team then t else actor
  | none => actor

/-- One call of the engine by its caller, with all of its arguments. -/
inductive Op where
  | attack (rand : Nat → ℚ) (actorId targetId : Nat) (logs : List LogEntry) (updates : Updates)
  | defend (actorId : Nat) (logs : List LogEntry)
  | pass (actorId : Nat) (logs : List LogEntry)
  | dodge (actorId : Nat) (logs : List LogEntry)
  | item (rand : Nat → ℚ) (actorId : Nat) (itemType : String) (targetId : Option Nat)
      (logs : List LogEntry) (updates : Updates)
  | record (playerId : Nat)
  | advance

/-- The battle record after one call. -/
def applyOp (b : Battle) (op : Op) : Battle :=
  match op with
  | Op.attack rand actorId targetId logs updates =>
    (processAttack rand b actorId targetId logs updates).battle
  | Op.defend actorId logs => (processDefend b actorId logs).battle
  | Op.pass actorId logs => (processPass b actorId logs).battle
  | Op.dodge actorId logs => (processDodge b actorId logs).battle
  | Op.item rand actorId itemType targetId logs updates =>
    (processItem rand b actorId itemType targetId logs updates).battle
  | Op.record playerId => recordPlayerAction b playerId
  | Op.advance => (advancePhase b).1

/-- The battle record after a sequence of calls. -/
def runOps (b : Battle) (ops : List Op) : Battle := ops.foldl applyOp b

/-- A member of team A with 10 hp left. -/
def frailAnn : Player :=
  { mkPlayer 1 "Ann" Team.A (some ⟨some 1, some 1, some 1, some 1⟩) with hp := 10 }

/-- A member of team B with attack 5. -/
def strongBob : Player := mkPlayer 2 "Bob" Team.B (some ⟨some 5, some 1, some 1, some 1⟩)

/-- A battle in which team A's only member is nearly defeated. -/
def skirmish : Battle := freshBattle [frailAnn, strongBob]

/-- The battle `skirmish` once Ann has acted and her phase has been advanced. -/
def skirmishPhaseB : Battle := runOps skirmish [Op.record 1, Op.advance]

/-- The calls of the first round of the damage scenario when nobody attacks. -/
def quietRound : List Op := [Op.record 1, Op.advance, Op.record 2, Op.advance]

/-- Attacker of the damage scenario carrying one dittany and one attack boost. -/
def stockedAnn : Player :=
  { duelAttacker with items := some ⟨some 1, some 1, some 0⟩ }

/-- The damage scenario with a stocked attacker and a wounded team mate of hers. -/
def stockedDuel : Battle :=
  freshBattle [stockedAnn, duelTarget, { mkPlayer 3 "Amy" Team.A none with hp := 95 }]

/-- The calls after which Ann, recorded as having acted, is defeated by Bob's attack. -/
def skirmishOps : List Op :=
  [Op.record 1, Op.advance, Op.attack always20 2 1 [] ⟨none⟩]

/-- Every id of an acted set is the id under which `find` returns a player of that team. -/
def actedAreMembers (b : Battle) : Prop :=
  ∀ (team : Team) (id : Nat), id ∈ b.turn.acted.get team →
    (findPlayer b id).map (fun p => p.team) = some team

/-- A random source whose every draw is 0: each die rolls 1, each boost succeeds. -/
def alwaysZero : Nat → ℚ := fun _ => 0

/-- The battle `stockedDuel` after Ann's attack boost has succeeded. -/
def boostedDuel : Battle :=
  (processItem alwaysZero stockedDuel 1 "attack_boost" none [] ⟨none⟩).battle

/-- The damage scenario after Bob has taken the defense stance. -/
def duelDefended : Battle := (processDefend duel 2 []).battle

/-- The damage scenario after Bob has been defeated, with every tie-break field naming the
eliminated team B. -/
def duelWon : Battle :=
  { freshBattle [duelAttacker, { duelTarget with hp := 0 }] with
    currentTeam := some Team.B, lastAttackerTeam := some Team.B, firstTeam := some Team.B }

/-- A tied battle whose record names no team anywhere: an empty `turn.order`, hence no
`currentTeam`, no `lastAttackerTeam` and no `firstTeam`; team B has the higher agility. -/
def tiedBattle : Battle :=
  constructor ⟨some [mkPlayer 1 "Ann" Team.A (some ⟨some 1, some 1, some 1, some 1⟩),
      mkPlayer 2 "Bob" Team.B (some ⟨some 1, some 1, some 5, some 1⟩)],
    none, some ⟨[], 0, 1, ⟨none, none⟩⟩, none, none, none, none, none⟩

/-- The tie-break on agility as the specification words it: the team with the strictly
higher sum of clamped agility, team A when the sums are equal. -/
def specAgilityWinner (b : Battle) : Team :=
  if agiSum b Team.B > agiSum b Team.A then Team.B else Team.A

/-- The hp a boosted connecting attack leaves as the specification words it: the raw
damage is doubled before the minimum clamp and the critical doubling. -/
def specBoostedHp (sa st : ReadStats) (defending : Bool) (hp r3 r4 r5 : Int) : Int :=
  let raw := (sa.attack + r4) - (st.defense + (if defending then r5 else 0))
  let clamped := if defending then Max.max 0 (2 * raw) else Max.max 1 (2 * raw)
  let dmg := if (r3 : ℚ) ≥ 20 - (sa.luck : ℚ) / 2 then 2 * clamped else clamped
  Max.max 0 (hp - dmg)

/-! ## Stats that are not numbers

The player record above holds integer stats.  A stat may also be a value that is no
number at all; the definitions below follow `_clamp`, `_readStats` and the hp computation
of `processAttack` over such values, where JavaScript arithmetic yields `NaN`. -/

/-- A JavaScript number as the arithmetic on stats produces it: an integer or `NaN`. -/
inductive JsNum where
  | int (n : Int)
  | nan
deriving DecidableEq, Repr

/-- A raw stat entry as the engine may find it: missing, an integer, or a truthy value that
`Number()` turns into `NaN`, such as `'abc'` or `{}`. -/
inductive RawStat where
  | missing
  | int (n : Int)
  | nonNumeric
deriving DecidableEq, Repr

/-- Raw stat block `p.stats` whose entries need not be numbers. -/
structure RawStats where
  attack : RawStat
  defense : RawStat
  agility : RawStat
  luck : RawStat
deriving DecidableEq, Repr

/-- Result of `_readStats` over JavaScript numbers. -/
structure ReadStatsJs where
  attack : JsNum
  defense : JsNum
  agility : JsNum
  luck : JsNum
deriving DecidableEq, Repr

/-- JS `a + b`. -/
def JsNum.add (a b : JsNum) : JsNum :=
  match a, b with
  | JsNum.int x, JsNum.int y => JsNum.int (x + y)
  | _, _ => JsNum.nan

/-- JS `a - b`. -/
def JsNum.sub (a b : JsNum) : JsNum :=
  match a, b with
  | JsNum.int x, JsNum.int y => JsNum.int (x - y)
  | _, _ => JsNum.nan

/-- JS `a * b`. -/
def JsNum.mul (a b : JsNum) : JsNum :=
  match a, b with
  | JsNum.int x, JsNum.int y => JsNum.int (x * y)
  | _, _ => JsNum.nan

/-- JS `Math.max(a, b)`: `NaN` as soon as one argument is `NaN`. -/
def JsNum.max (a b : JsNum) : JsNum :=
  match a, b with
  | JsNum.int x, JsNum.int y => JsNum.int (Max.max x y)
  | _, _ => JsNum.nan

/-- JS `Math.min(a, b)`: `NaN` as soon as one argument is `NaN`. -/
def JsNum.min (a b : JsNum) : JsNum :=
  match a, b with
  | JsNum.int x, JsNum.int y => JsNum.int (Min.min x y)
  | _, _ => JsNum.nan

/-- JS `a >= b`: false as soon as one side is `NaN`. -/
def JsNum.ge (a b : JsNum) : Bool :=
  match a, b with
  | JsNum.int x, JsNum.int y => decide (x ≥ y)
  | _, _ => false

/-- JS `Number(x||0)`: a missing entry gives 0, a non-numeric one `NaN`. -/
def Js.numberOr0 (x : RawStat) : JsNum :=
  match x with
  | RawStat.missing => JsNum.int 0
  | RawStat.int n => JsNum.int n
  | RawStat.nonNumeric => JsNum.nan

/-- JS `_clamp(n,min,max)`, that is `Math.max(min, Math.min(max,n))`. -/
def Js._clamp (n : JsNum) (min max : Int) : JsNum :=
  JsNum.max (JsNum.int min) (JsNum.min (JsNum.int max) n)

/-- JS `_readStats(p)`, given `p.stats`. -/
def Js._readStats (stats : Option RawStats) : ReadStatsJs :=
  let s : RawStats :=
    stats.getD ⟨RawStat.missing, RawStat.missing, RawStat.missing, RawStat.missing⟩
  { attack := Js._clamp (Js.numberOr0 s.attack) 1 5
    defense := Js._clamp (Js.numberOr0 s.defense) 1 5
    agility := Js._clamp (Js.numberOr0 s.agility) 1 5
    luck := Js._clamp (Js.numberOr0 s.luck) 1 5 }

/-- JS `this._randD20() >= (20 - sa.luck/2)`, given the roll. -/
def Js.isCrit (luck : JsNum) (roll : Int) : Bool :=
  match luck with
  | JsNum.int l => decide ((roll : ℚ) ≥ 20 - (l : ℚ) / 2)
  | JsNum.nan => false

/-- Lines 49 to 67 of `processAttack` over JavaScript numbers, for a target with integer
hp: the value written to `t.hp`, or `none` when the attack is fully evaded. -/
def Js.processAttackHp (rand : Nat → ℚ) (sa st : ReadStatsJs) (targetDefend : Bool)
    (hp : Int) : Option JsNum :=
  let atkRoll := sa.attack.add (JsNum.int (_randD20 (rand 0)))
  let evadeRoll := st.agility.add (JsNum.int (_randD20 (rand 1)))
  if evadeRoll.ge atkRoll then none
  else
    let isCrit := Js.isCrit sa.luck (_randD20 (rand 2))
    let attackRoll2 := sa.attack.add (JsNum.int (_randD20 (rand 3)))
    let defenseRoll :=
      st.defense.add (JsNum.int (if targetDefend then _randD20 (rand 4) else 0))
    let dmg0 := attackRoll2.sub defenseRoll
    let dmg1 := if targetDefend then JsNum.max (JsNum.int 0) dmg0
      else JsNum.max (JsNum.int 1) dmg0
    let dmg := if isCrit then dmg1.mul (JsNum.int 2) else dmg1
    some (JsNum.max (JsNum.int 0) ((JsNum.int hp).sub dmg))

/-- The bound `0 <= hp <= maxHp` on a JavaScript number; `NaN` satisfies no comparison. -/
def Js.hpInBound (hp : JsNum) (maxHp : Int) : Prop :=
  match hp with
  | JsNum.int n => 0 ≤ n ∧ n ≤ maxHp
  | JsNum.nan => False

/-- An integer or missing entry as a raw stat entry. -/
def RawStat.ofOption (x : Option Int) : RawStat :=
  match x with
  | some n => RawStat.int n
  | none => RawStat.missing

/-- An integer stat block as a raw stat block. -/
def Stats.toRaw (s : Stats) : RawStats :=
  ⟨RawStat.ofOption s.attack, RawStat.ofOption s.defense, RawStat.ofOption s.agility,
    RawStat.ofOption s.luck⟩

/-- Integer stat values as JavaScript numbers. -/
def ReadStats.toJs (s : ReadStats) : ReadStatsJs :=
  ⟨JsNum.int s.attack, JsNum.int s.defense, JsNum.int s.agility, JsNum.int s.luck⟩

/-- A stat block whose attack is the string `'abc'` and whose other entries are missing. -/
def abcStats : RawStats :=
  ⟨RawStat.nonNumeric, RawStat.missing, RawStat.missing, RawStat.missing⟩

/-- A stat block with a non-numeric attack, defense 3, no agility and luck 9. -/
def mixedStats : RawStats :=
  ⟨RawStat.nonNumeric, RawStat.int 3, RawStat.missing, RawStat.int 9⟩

/-! ## More of the specification's wording -/

/-- The number of living members of a team as the specification words it: the players of
the team with hp above 0. -/
def specAliveCount (b : Battle) (team : Team) : Nat :=
  (playersOf b).countP (fun p => decide (p.team = team ∧ 0 < p.hp))

/-- The hp sum of a team as the specification words it: the sum of hp over all members of
the team, defeated ones included. -/
def specHpTotal (b : Battle) (team : Team) : Int :=
  (((playersOf b).filter (fun p => decide (p.team = team))).map (fun p => p.hp)).sum

/-- A player whose `maxHp` is 0, at 0 hp, carrying one dittany. -/
def zeroMaxAnn : Player :=
  { mkPlayer 1 "Ann" Team.A none with
    hp := 0, maxHp := some 0, items := some ⟨some 1, some 0, some 0⟩ }

/-- A battle whose team A member has `maxHp` 0. -/
def zeroMaxBattle : Battle := freshBattle [zeroMaxAnn, duelTarget]

/-- A player without a `maxHp` field, at 95 hp, carrying one dittany. -/
def noMaxAnn : Player :=
  { mkPlayer 1 "Ann" Team.A none with
    hp := 95, maxHp := none, items := some ⟨some 1, some 0, some 0⟩ }

/-- A battle whose team A member has no `maxHp` field. -/
def noMaxBattle : Battle := freshBattle [noMaxAnn, duelTarget]

/-! ## Lemmas on the player list -/


theorem find?_id {ps : List Player} {i : Nat} {p : Player}
    (h : ps.find? (fun p => decide (p.id = i)) = some p) : p.id = i := by
  have := List.find?_some h
  simpa using this

theorem findPlayer_id {b : Battle} {i : Nat} {p : Player} (h : findPlayer b i = some p) :
    p.id = i := find?_id h

theorem findPlayer_mem {b : Battle} {i : Nat} {p : Player} (h : findPlayer b i = some p) :
    p ∈ playersOf b := List.mem_of_find?_eq_some h

theorem find?_modifyFirst_same (ps : List Player) (i : Nat) (f : Player → Player)
    (hf : ∀ p, (f p).id = p.id) :
    (modifyFirst ps i f).find? (fun p => decide (p.id = i))
      = (ps.find? (fun p => decide (p.id = i))).map f := by
  induction ps with
  | nil => simp [modifyFirst]
  | cons p rest ih =>
    by_cases h : p.id = i
    · simp [modifyFirst, h, List.find?_cons, hf]
    · simp [modifyFirst, h, List.find?_cons, ih]

theorem find?_modifyFirst_other (ps : List Player) (i j : Nat) (f : Player → Player)
    (hf : ∀ p, (f p).id = p.id) (hij : j ≠ i) :
    (modifyFirst ps i f).find? (fun p => decide (p.id = j))
      = ps.find? (fun p => decide (p.id = j)) := by
  induction ps with
  | nil => simp [modifyFirst]
  | cons p rest ih =>
    by_cases h : p.id = i
    · have hj : ¬ p.id = j := by rw [h]; exact fun e => hij e.symm
      simp [modifyFirst, h, List.find?_cons, hf, hj, hij.symm]
    · by_cases hj : p.id = j
      · have h2 : ¬ j = i := hij
        simp [modifyFirst, List.find?_cons, hj, h2]
      · simp [modifyFirst, h, List.find?_cons, hj, ih]

theorem findPlayer_mutatePlayer_same (b : Battle) (i : Nat) (f : Player → Player)
    (hf : ∀ p, (f p).id = p.id) :
    findPlayer (mutatePlayer b i f) i = (findPlayer b i).map f := by
  unfold findPlayer mutatePlayer playersOf
  cases hps : b.players with
  | none => simp
  | some ps => simpa using find?_modifyFirst_same ps i f hf

theorem findPlayer_mutatePlayer_other (b : Battle) (i j : Nat) (f : Player → Player)
    (hf : ∀ p, (f p).id = p.id) (hij : j ≠ i) :
    findPlayer (mutatePlayer b i f) j = findPlayer b j := by
  unfold findPlayer mutatePlayer playersOf
  cases hps : b.players with
  | none => simp
  | some ps => simpa using find?_modifyFirst_other ps i j f hf hij

theorem findPlayer_of_players {b b' : Battle} (h : b'.players = b.players) (i : Nat) :
    findPlayer b' i = findPlayer b i := by
  simp only [findPlayer, playersOf, h]

/-- Whatever holds of every player, and of the rewritten first match, holds of every
player after `modifyFirst`. -/
theorem modifyFirst_forall (P : Player → Prop) (ps : List Player) (i : Nat)
    (f : Player → Player) (h : ∀ p ∈ ps, P p)
    (hf : ∀ p, ps.find? (fun p => decide (p.id = i)) = some p → P (f p)) :
    ∀ q ∈ modifyFirst ps i f, P q := by
  induction ps with
  | nil => intro q hq; simp [modifyFirst] at hq
  | cons p rest ih =>
    intro q hq
    by_cases hp : p.id = i
    · simp only [modifyFirst, hp, if_true, List.mem_cons] at hq
      rcases hq with rfl | hq
      · exact hf p (by simp [List.find?_cons, hp])
      · exact h q (List.mem_cons_of_mem _ hq)
    · simp only [modifyFirst, hp, if_false, List.mem_cons] at hq
      rcases hq with rfl | hq
      · exact h q (List.mem_cons_self _ _)
      · refine ih (fun r hr => h r (List.mem_cons_of_mem _ hr)) ?_ q hq
        intro r hr
        exact hf r (by simpa [List.find?_cons, hp] using hr)

/-! ## The die -/

/-- A draw of `Math.random()`, in `[0,1)`, rolls a value of `1..20`. -/
theorem randD20_range (u : ℚ) (h0 : 0 ≤ u) (h1 : u < 1) :
    1 ≤ _randD20 u ∧ _randD20 u ≤ 20 := by
  unfold _randD20
  have hlo : (0 : Int) ≤ ⌊u * 20⌋ := Int.floor_nonneg.mpr (by positivity)
  have hhi : ⌊u * 20⌋ < 20 := by
    rw [Int.floor_lt]
    push_cast
    linarith
  omega

/-- Every value of `1..20` is rolled by some draw of `[0,1)`. -/
theorem randD20_surj (r : Int) (h1 : 1 ≤ r) (h20 : r ≤ 20) :
    ∃ u : ℚ, 0 ≤ u ∧ u < 1 ∧ _randD20 u = r := by
  refine ⟨((r - 1 : Int) : ℚ) / 20, ?_, ?_, ?_⟩
  · have : (0 : ℚ) ≤ ((r - 1 : Int) : ℚ) := by exact_mod_cast (by omega : (0 : Int) ≤ r - 1)
    positivity
  · have : ((r - 1 : Int) : ℚ) < 20 := by exact_mod_cast (by omega : r - 1 < 20)
    rw [div_lt_one (by norm_num)]
    exact this
  · unfold _randD20
    rw [div_mul_cancel₀ _ (by norm_num : (20 : ℚ) ≠ 0), Int.floor_intCast]
    omega

theorem specAttackDamage_nonneg (sa st : ReadStats) (d : Bool) (r3 r4 r5 : Int) :
    0 ≤ specAttackDamage sa st d r3 r4 r5 := by
  unfold specAttackDamage
  cases d <;> simp only [] <;> split_ifs <;> simp

/-! ## processAttack -/

/-- The damage computed by the code is the damage the specification words. -/
theorem code_damage_eq (sa st : ReadStats) (d : Bool) (r3 r4 r5 : Int) :
    (if decide ((r3 : ℚ) ≥ 20 - (sa.luck : ℚ) / 2) = true then
        (if d = true then Max.max 0 (sa.attack + r4 - (st.defense + if d = true then r5 else 0))
          else Max.max 1 (sa.attack + r4 - (st.defense + if d = true then r5 else 0))) * 2
      else
        (if d = true then Max.max 0 (sa.attack + r4 - (st.defense + if d = true then r5 else 0))
          else Max.max 1 (sa.attack + r4 - (st.defense + if d = true then r5 else 0))))
      = specAttackDamage sa st d r3 r4 r5 := by
  simp only [specAttackDamage, decide_eq_true_eq, ge_iff_le, mul_comm]

/-- The outcome of an attack that connects. -/
theorem processAttack_hit (rand : Nat → ℚ) (b : Battle) (actorId targetId : Nat)
    (logs : List LogEntry) (updates : Updates) (a t : Player)
    (ha : findPlayer b actorId = some a) (ht : findPlayer b targetId = some t)
    (hteam : a.team ≠ t.team) (hhp : 0 < t.hp)
    (hconn : (_readStats t).agility + _randD20 (rand 1)
      < (_readStats a).attack + _randD20 (rand 0))
    (dmg hp : Int)
    (hdmg : dmg = specAttackDamage (_readStats a) (_readStats t) t._defend
      (_randD20 (rand 2)) (_randD20 (rand 3)) (_randD20 (rand 4)))
    (hhp' : hp = Max.max 0 (t.hp - dmg)) :
    processAttack rand b actorId targetId logs updates
      = ⟨true,
          { mutatePlayer b targetId (fun p =>
              { p with hp := hp, _defend := if t._defend then false else p._defend }) with
            lastAttackerTeam := some a.team },
          (if hp ≤ 0 then
            (logs ++ [⟨"combat", a.name ++ "가 " ++ t.name ++ "에게 " ++ toString dmg
              ++ " 피해를 입혔습니다" ++ critTxt (decide (((_randD20 (rand 2) : Int) : ℚ)
                ≥ 20 - ((_readStats a).luck : ℚ) / 2))⟩]) ++ [⟨"combat", t.name ++ " 전투불능!"⟩]
          else
            logs ++ [⟨"combat", a.name ++ "가 " ++ t.name ++ "에게 " ++ toString dmg
              ++ " 피해를 입혔습니다" ++ critTxt (decide (((_randD20 (rand 2) : Int) : ℚ)
                ≥ 20 - ((_readStats a).luck : ℚ) / 2))⟩]),
          updates.setHp targetId hp,
          if t._defend then 5 else 4⟩ := by
  have hid := findPlayer_id ht
  have hnle : ¬ t.hp ≤ 0 := not_le.mpr hhp
  have hnev : ¬ (_readStats a).attack + _randD20 (rand 0)
      ≤ (_readStats t).agility + _randD20 (rand 1) := not_le.mpr hconn
  simp only [processAttack, ha, ht, hteam, hnle, ge_iff_le, hnev, if_false]
  have := code_damage_eq (_readStats a) (_readStats t) t._defend
    (_randD20 (rand 2)) (_randD20 (rand 3)) (_randD20 (rand 4))
  simp only [ge_iff_le] at this
  rw [this, ← hdmg, ← hhp', hid]

/-- C1. Connecting attack formula: when actor and target exist, are on different teams,
the target has hp above 0 and the evade roll `agility + r2` is below the attack roll
`attack + r1`, `processAttack` returns true, the target's hp becomes
`max(0, hp - dmg)` with `dmg` the damage of the specification computed from the clamped
stats and the rolls r3 (critical), r4 (second attack roll) and r5 (defense roll), and
`updates.hp[target.id]` is that new hp. -/
theorem processAttack_connect_formula (rand : Nat → ℚ) (b : Battle) (actorId targetId : Nat)
    (logs : List LogEntry) (updates : Updates) (a t : Player)
    (ha : findPlayer b actorId = some a) (ht : findPlayer b targetId = some t)
    (hteam : a.team ≠ t.team) (hhp : 0 < t.hp)
    (hconn : (_readStats t).agility + _randD20 (rand 1)
      < (_readStats a).attack + _randD20 (rand 0)) :
    (processAttack rand b actorId targetId logs updates).ok = true
    ∧ (findPlayer (processAttack rand b actorId targetId logs updates).battle targetId).map
        (fun p => p.hp)
      = some (Max.max 0 (t.hp - specAttackDamage (_readStats a) (_readStats t) t._defend
          (_randD20 (rand 2)) (_randD20 (rand 3)) (_randD20 (rand 4))))
    ∧ (processAttack rand b actorId targetId logs updates).updates.getHp t.id
      = some (Max.max 0 (t.hp - specAttackDamage (_readStats a) (_readStats t) t._defend
          (_randD20 (rand 2)) (_randD20 (rand 3)) (_randD20 (rand 4)))) := by
  rw [processAttack_hit rand b actorId targetId logs updates a t ha ht hteam hhp hconn _ _
    rfl rfl]
  refine ⟨rfl, ?_, ?_⟩
  · rw [findPlayer_of_players (b := mutatePlayer b targetId _) (i := targetId) (by exact rfl),
      findPlayer_mutatePlayer_same, ht]
    · rfl
    · intro p; rfl
  · simp [Updates.setHp, Updates.getHp, findPlayer_id ht]

theorem always20_roll (i : Nat) : _randD20 (always20 i) = 20 := by
  norm_num [_randD20, always20]

/-- C1, the scenario: attack 5 and luck 1 against agility 1 and defense 1, target not
defending with hp 100, every die 20: the damage is 48 and the hp becomes 52. -/
theorem processAttack_connect_formula_witness :
    specAttackDamage (_readStats duelAttacker) (_readStats duelTarget) duelTarget._defend
        (_randD20 (always20 2)) (_randD20 (always20 3)) (_randD20 (always20 4)) = 48
    ∧ (processAttack always20 duel 1 2 [] ⟨none⟩).ok = true
    ∧ (findPlayer (processAttack always20 duel 1 2 [] ⟨none⟩).battle 2).map (fun p => p.hp)
      = some 52
    ∧ (processAttack always20 duel 1 2 [] ⟨none⟩).updates.getHp 2 = some 52 := by
  have hd : specAttackDamage (_readStats duelAttacker) (_readStats duelTarget)
      duelTarget._defend (_randD20 (always20 2)) (_randD20 (always20 3))
      (_randD20 (always20 4)) = 48 := by
    simp only [always20_roll]
    norm_num [specAttackDamage, _readStats, statsOf, _clamp, numOr0, duelAttacker, duelTarget,
      mkPlayer]
  have h := processAttack_connect_formula always20 duel 1 2 [] ⟨none⟩ duelAttacker duelTarget
    (by decide) (by decide) (by decide) (by decide)
    (by simp only [always20_roll]; decide)
  rw [hd] at h
  exact ⟨hd, h.1, h.2.1, h.2.2⟩

/-- C2. Attack rejection is atomic: when the actor or the target is not in the player
list, or both are on the same team, or the target's hp is 0, `processAttack` returns
false, appends exactly one log entry, of type "error", draws no die, and leaves the
battle record and the update delta as they were. -/
theorem processAttack_reject_atomic (rand : Nat → ℚ) (b : Battle) (actorId targetId : Nat)
    (logs : List LogEntry) (updates : Updates)
    (h : findPlayer b actorId = none ∨ findPlayer b targetId = none
      ∨ (∃ a t, findPlayer b actorId = some a ∧ findPlayer b targetId = some t
          ∧ a.team = t.team)
      ∨ (∃ t, findPlayer b targetId = some t ∧ t.hp = 0)) :
    (processAttack rand b actorId targetId logs updates).ok = false
    ∧ (∃ e : LogEntry, e.type = "error"
        ∧ (processAttack rand b actorId targetId logs updates).logs = logs ++ [e])
    ∧ (processAttack rand b actorId targetId logs updates).used = 0
    ∧ (processAttack rand b actorId targetId logs updates).battle = b
    ∧ (processAttack rand b actorId targetId logs updates).updates = updates := by
  have heq : ∃ msg : String, processAttack rand b actorId targetId logs updates
      = ⟨false, b, logs ++ [⟨"error", msg⟩], updates, 0⟩ := by
    cases ha : findPlayer b actorId with
    | none => exact ⟨"대상 오류", by simp [processAttack, ha]⟩
    | some a =>
      cases ht : findPlayer b targetId with
      | none => exact ⟨"대상 오류", by simp [processAttack, ha, ht]⟩
      | some t =>
        by_cases hteam : a.team = t.team
        · exact ⟨"같은 팀은 공격할 수 없습니다", by simp [processAttack, ha, ht, hteam]⟩
        · have h0 : t.hp ≤ 0 := by
            rcases h with h | h | ⟨a', t', ha', ht', hs⟩ | ⟨t', ht', h0⟩
            · rw [ha] at h; cases h
            · rw [ht] at h; cases h
            · rw [ha] at ha'; rw [ht] at ht'; cases ha'; cases ht'; exact absurd hs hteam
            · rw [ht] at ht'; cases ht'; exact le_of_eq h0
          exact ⟨"쓰러진 대상은 공격할 수 없습니다", by simp [processAttack, ha, ht, hteam, h0]⟩
  obtain ⟨msg, heq⟩ := heq
  rw [heq]
  exact ⟨rfl, ⟨⟨"error", msg⟩, rfl, rfl⟩, rfl, rfl, rfl⟩

/-- C2, the scenario: attacker and target both on team A. -/
theorem processAttack_reject_atomic_witness :
    (processAttack always20 trio 1 3 [] ⟨none⟩).ok = false
    ∧ (∃ e : LogEntry, e.type = "error"
        ∧ (processAttack always20 trio 1 3 [] ⟨none⟩).logs = [] ++ [e])
    ∧ (processAttack always20 trio 1 3 [] ⟨none⟩).used = 0
    ∧ (processAttack always20 trio 1 3 [] ⟨none⟩).battle = trio
    ∧ (processAttack always20 trio 1 3 [] ⟨none⟩).updates = ⟨none⟩ :=
  processAttack_reject_atomic always20 trio 1 3 [] ⟨none⟩
    (Or.inr (Or.inr (Or.inl ⟨mkPlayer 1 "Ann" Team.A none, mkPlayer 3 "Amy" Team.A none,
      by decide, by decide, by decide⟩)))

/-- The miss message never ends with the critical marker, whatever the names. -/
theorem miss_message_unmarked (x y : String) :
    ¬ critMarker.data <:+ (x ++ "의 공격을 " ++ y ++ "이(가) 완전회피!").data := by
  intro h
  rw [String.data_append] at h
  have h2 : critMarker.data <:+ ("이(가) 완전회피!" : String).data :=
    List.suffix_of_suffix_length_le h (List.suffix_append _ _) (by decide)
  revert h2
  decide

/-- C3. Full evasion has no effect: for a valid attack whose evade roll `agility + r2`
is at least the attack roll `attack + r1`, `processAttack` returns true, appends exactly
one log entry, of type "combat" and without the critical marker, leaves the whole battle
record unchanged (hence every player's hp and `lastAttackerTeam`), leaves the update
delta unchanged, and has drawn exactly the two dice of the hit check. -/
theorem processAttack_full_evade (rand : Nat → ℚ) (b : Battle) (actorId targetId : Nat)
    (logs : List LogEntry) (updates : Updates) (a t : Player)
    (ha : findPlayer b actorId = some a) (ht : findPlayer b targetId = some t)
    (hteam : a.team ≠ t.team) (hhp : 0 < t.hp)
    (hev : (_readStats t).agility + _randD20 (rand 1)
      ≥ (_readStats a).attack + _randD20 (rand 0)) :
    (processAttack rand b actorId targetId logs updates).ok = true
    ∧ (∃ e : LogEntry, e.type = "combat" ∧ ¬ critMarker.data <:+ e.message.data
        ∧ (processAttack rand b actorId targetId logs updates).logs = logs ++ [e])
    ∧ (processAttack rand b actorId targetId logs updates).battle = b
    ∧ (∀ i, (findPlayer (processAttack rand b actorId targetId logs updates).battle i).map
          (fun p => p.hp) = (findPlayer b i).map (fun p => p.hp))
    ∧ (processAttack rand b actorId targetId logs updates).battle.lastAttackerTeam
        = b.lastAttackerTeam
    ∧ (processAttack rand b actorId targetId logs updates).updates = updates
    ∧ (processAttack rand b actorId targetId logs updates).used = 2 := by
  have hnle : ¬ t.hp ≤ 0 := not_le.mpr hhp
  have heq : processAttack rand b actorId targetId logs updates
      = ⟨true, b, logs ++ [⟨"combat", a.name ++ "의 공격을 " ++ t.name ++ "이(가) 완전회피!"⟩],
          updates, 2⟩ := by
    simp only [processAttack, ha, ht, hteam, hnle, hev, if_false, if_true]
  rw [heq]
  exact ⟨rfl, ⟨_, rfl, miss_message_unmarked a.name t.name, rfl⟩, rfl, fun _ => rfl, rfl, rfl,
    rfl⟩

theorem lowHigh_rolls : _randD20 (lowHigh 0) = 1 ∧ _randD20 (lowHigh 1) = 20 := by
  constructor <;> norm_num [_randD20, lowHigh]

/-- C3, a concrete evasion: attack roll 5 + 1 against evade roll 1 + 20. -/
theorem processAttack_full_evade_witness :
    (processAttack lowHigh duel 1 2 [] ⟨none⟩).ok = true
    ∧ (processAttack lowHigh duel 1 2 [] ⟨none⟩).battle = duel
    ∧ (processAttack lowHigh duel 1 2 [] ⟨none⟩).used = 2 := by
  have h := processAttack_full_evade lowHigh duel 1 2 [] ⟨none⟩ duelAttacker duelTarget
    (by decide) (by decide) (by decide) (by decide)
    (by rw [lowHigh_rolls.1, lowHigh_rolls.2]; decide)
  exact ⟨h.1, h.2.2.1, h.2.2.2.2.2.2⟩

/-! ## _readStats -/

theorem clamp_spec (raw : Option Int) : specClamped raw (_clamp (numOr0 raw) 1 5) := by
  unfold specClamped _clamp numOr0
  refine ⟨⟨le_max_left _ _, max_le (by decide) (min_le_left _ _)⟩, ?_, ?_, ?_, ?_⟩
  · rintro n rfl h1 h5
    simp only [Option.getD_some]
    rw [min_eq_right h5, max_eq_right h1]
  · rintro rfl
    decide
  · rintro n rfl h1
    simp only [Option.getD_some]
    rw [min_eq_right (by omega), max_eq_left (by omega)]
  · rintro n rfl h5
    simp only [Option.getD_some]
    rw [min_eq_left (by omega)]
    decide

/-- Stat clamping on a stat block of integers and missing entries: each of attack,
defense, agility and luck returned by `_readStats` lies in `[1,5]`, equals the raw value
when that is an integer of `[1,5]`, equals 1 when the raw value is absent, 0 or below 1,
and equals 5 when the raw value is above 5. -/
theorem readStats_clamped (p : Player) :
    specClamped (statsOf p).attack (_readStats p).attack
    ∧ specClamped (statsOf p).defense (_readStats p).defense
    ∧ specClamped (statsOf p).agility (_readStats p).agility
    ∧ specClamped (statsOf p).luck (_readStats p).luck
    ∧ (p.stats = none → _readStats p = ⟨1, 1, 1, 1⟩) :=
  ⟨clamp_spec _, clamp_spec _, clamp_spec _, clamp_spec _,
    fun h => by simp [_readStats, statsOf, h, numOr0, _clamp]⟩

/-! ## The hit-point bound -/

theorem findPlayer_mutatePlayer (b : Battle) (i j : Nat) (f : Player → Player)
    (hf : ∀ p, (f p).id = p.id) :
    findPlayer (mutatePlayer b i f) j
      = if j = i then (findPlayer b j).map f else findPlayer b j := by
  by_cases h : j = i
  · subst h
    simp [findPlayer_mutatePlayer_same b j f hf]
  · simp [h, findPlayer_mutatePlayer_other b i j f hf h]

theorem hpInvariant_of_players {b b' : Battle} (h : b'.players = b.players)
    (hb : hpInvariant b) : hpInvariant b' := by
  unfold hpInvariant playersOf at *
  rw [h]
  exact hb

theorem hpInvariant_mutatePlayer (b : Battle) (i : Nat) (f : Player → Player)
    (hb : hpInvariant b) (hf : ∀ p, findPlayer b i = some p → hpInRange (f p)) :
    hpInvariant (mutatePlayer b i f) := by
  unfold hpInvariant playersOf mutatePlayer
  unfold hpInvariant playersOf at hb
  unfold findPlayer playersOf at hf
  cases hps : b.players with
  | none => intro p hp; simp at hp
  | some ps =>
    rw [hps] at hb hf
    simp only [Option.map_some', Option.getD_some] at hb hf ⊢
    exact modifyFirst_forall hpInRange ps i f hb hf

/-- A rewrite that keeps hp and maxHp keeps the bound. -/
theorem hpInvariant_mutatePlayer_frame (b : Battle) (i : Nat) (f : Player → Player)
    (hb : hpInvariant b) (hf : ∀ p, (f p).hp = p.hp ∧ (f p).maxHp = p.maxHp) :
    hpInvariant (mutatePlayer b i f) := by
  refine hpInvariant_mutatePlayer b i f hb ?_
  intro p hp
  obtain ⟨m, h1, h2, h3, h4⟩ := hb p (findPlayer_mem hp)
  exact ⟨m, by rw [(hf p).2, h1], h2, by rw [(hf p).1]; exact h3, by rw [(hf p).1]; exact h4⟩

theorem processAttack_hpInvariant (rand : Nat → ℚ) (b : Battle) (actorId targetId : Nat)
    (logs : List LogEntry) (updates : Updates) (hb : hpInvariant b) :
    hpInvariant (processAttack rand b actorId targetId logs updates).battle := by
  cases ha : findPlayer b actorId with
  | none => simpa [processAttack, ha] using hb
  | some a =>
    cases ht : findPlayer b targetId with
    | none => simpa [processAttack, ha, ht] using hb
    | some t =>
      by_cases hteam : a.team = t.team
      · simpa [processAttack, ha, ht, hteam] using hb
      · by_cases h0 : t.hp ≤ 0
        · simpa [processAttack, ha, ht, hteam, h0] using hb
        · by_cases hev : (_readStats t).agility + _randD20 (rand 1)
              ≥ (_readStats a).attack + _randD20 (rand 0)
          · have : (processAttack rand b actorId targetId logs updates).battle = b := by
              simp only [processAttack, ha, ht, hteam, h0, hev, if_false, if_true]
            rw [this]; exact hb
          · rw [processAttack_hit rand b actorId targetId logs updates a t ha ht hteam
              (not_le.mp h0) (not_le.mp hev) _ _ rfl rfl]
            refine hpInvariant_of_players (b := mutatePlayer b targetId _) rfl ?_
            refine hpInvariant_mutatePlayer b targetId _ hb ?_
            intro p hp
            rw [ht] at hp
            have hpt : t = p := Option.some.inj hp
            subst hpt
            obtain ⟨m, h1, h2, h3, h4⟩ := hb t (findPlayer_mem ht)
            have hd := specAttackDamage_nonneg (_readStats a) (_readStats t) t._defend
              (_randD20 (rand 2)) (_randD20 (rand 3)) (_randD20 (rand 4))
            refine ⟨m, h1, h2, le_max_left _ _, max_le (le_of_lt h2) ?_⟩
            omega

theorem processDefend_hpInvariant (b : Battle) (actorId : Nat) (logs : List LogEntry)
    (hb : hpInvariant b) : hpInvariant (processDefend b actorId logs).battle := by
  unfold processDefend
  cases findPlayer b actorId with
  | none => exact hb
  | some a => exact hpInvariant_mutatePlayer_frame b actorId _ hb (fun _ => ⟨rfl, rfl⟩)

theorem processPass_hpInvariant (b : Battle) (actorId : Nat) (logs : List LogEntry)
    (hb : hpInvariant b) : hpInvariant (processPass b actorId logs).battle := by
  unfold processPass
  cases findPlayer b actorId with
  | none => exact hb
  | some a => exact hb

theorem processDodge_hpInvariant (b : Battle) (actorId : Nat) (logs : List LogEntry)
    (hb : hpInvariant b) : hpInvariant (processDodge b actorId logs).battle := by
  unfold processDodge
  cases findPlayer b actorId with
  | none => exact hb
  | some a => exact hpInvariant_mutatePlayer_frame b actorId _ hb (fun _ => ⟨rfl, rfl⟩)

theorem findPlayer_healTarget (b : Battle) (actorId : Nat) (targetId : Option Nat) (a : Player)
    (ha : findPlayer b actorId = some a) :
    findPlayer b (healTarget (findPlayer? b targetId) a).id
      = some (healTarget (findPlayer? b targetId) a) := by
  have haid := findPlayer_id ha
  cases targetId with
  | none => simpa [findPlayer?, healTarget, haid] using ha
  | some j =>
    simp only [findPlayer?]
    cases ht : findPlayer b j with
    | none => simpa [healTarget, haid] using ha
    | some t =>
      by_cases hteam : t.team = a.team
      · simpa [healTarget, hteam, findPlayer_id ht] using ht
      · simpa [healTarget, hteam, haid] using ha

/-- A rewrite that keeps id, hp and maxHp shows, under every id, a player with the hp
and maxHp found there before. -/
theorem findPlayer_mutatePlayer_frame (b : Battle) (i j : Nat) (f : Player → Player)
    (p : Player) (hp : findPlayer (mutatePlayer b i f) j = some p)
    (hf : ∀ p, (f p).id = p.id ∧ (f p).hp = p.hp ∧ (f p).maxHp = p.maxHp) :
    ∃ q, findPlayer b j = some q ∧ p.hp = q.hp ∧ p.maxHp = q.maxHp := by
  rw [findPlayer_mutatePlayer b i j f (fun p => (hf p).1)] at hp
  split_ifs at hp with h
  · cases hq : findPlayer b j with
    | none => rw [hq] at hp; cases hp
    | some q =>
      rw [hq] at hp
      have : f q = p := Option.some.inj hp
      subst this
      exact ⟨q, rfl, (hf q).2.1, (hf q).2.2⟩
  · exact ⟨p, hp, rfl, rfl⟩

theorem processItem_hpInvariant (rand : Nat → ℚ) (b : Battle) (actorId : Nat)
    (itemType : String) (targetId : Option Nat) (logs : List LogEntry) (updates : Updates)
    (hb : hpInvariant b) :
    hpInvariant (processItem rand b actorId itemType targetId logs updates).battle := by
  unfold processItem
  cases ha : findPlayer b actorId with
  | none => exact hb
  | some a0 =>
    simp only []
    have hb1 : hpInvariant (mutatePlayer b actorId
        (fun p => { p with items := some (p.items.getD defaultItems) })) :=
      hpInvariant_mutatePlayer_frame b actorId _ hb (fun _ => ⟨rfl, rfl⟩)
    have ha1 : findPlayer (mutatePlayer b actorId
        (fun p => { p with items := some (p.items.getD defaultItems) })) actorId
        = some { a0 with items := some (a0.items.getD defaultItems) } := by
      rw [findPlayer_mutatePlayer_same, ha]
      · rfl
      · intro p; rfl
    split_ifs
    · exact hb1
    · -- dittany
      refine hpInvariant_mutatePlayer _ _ _
        (hpInvariant_mutatePlayer_frame _ actorId _ hb1 (fun _ => ⟨rfl, rfl⟩)) ?_
      intro p hp
      obtain ⟨q, hq, hhp, hmax⟩ := findPlayer_mutatePlayer_frame _ _ _ _ p hp
        (fun _ => ⟨rfl, rfl, rfl⟩)
      rw [findPlayer_healTarget _ actorId targetId _ ha1] at hq
      have hqe := Option.some.inj hq
      obtain ⟨m, h1, h2, h3, h4⟩ :=
        hb1 q (findPlayer_mem (hqe ▸ findPlayer_healTarget _ actorId targetId _ ha1))
      rw [hqe]
      have hm : maxHpOr100 q = m := by simp [maxHpOr100, h1, ne_of_gt h2]
      refine ⟨m, by rw [← h1, ← hmax], h2, ?_, ?_⟩
      · show 0 ≤ Min.min (maxHpOr100 q) (q.hp + 10)
        rw [hm]; exact le_min (le_of_lt h2) (by omega)
      · show Min.min (maxHpOr100 q) (q.hp + 10) ≤ m
        rw [hm]; exact min_le_left _ _
    · exact hb1
    · exact hpInvariant_mutatePlayer_frame _ actorId _
        (hpInvariant_mutatePlayer_frame _ actorId _ hb1 (fun _ => ⟨rfl, rfl⟩))
        (fun _ => ⟨rfl, rfl⟩)
    · exact hpInvariant_mutatePlayer_frame _ actorId _ hb1 (fun _ => ⟨rfl, rfl⟩)
    · exact hb1
    · exact hpInvariant_mutatePlayer_frame _ actorId _
        (hpInvariant_mutatePlayer_frame _ actorId _ hb1 (fun _ => ⟨rfl, rfl⟩))
        (fun _ => ⟨rfl, rfl⟩)
    · exact hpInvariant_mutatePlayer_frame _ actorId _ hb1 (fun _ => ⟨rfl, rfl⟩)
    · exact hb1

/-- The hit-point bound on players with integer stats: if every player has
`0 <= hp <= maxHp` with `maxHp` a positive integer, then after `processAttack`,
`processDefend`, `processPass`, `processDodge` or `processItem`, with any arguments, any
dice and any probability draw, every player still has `0 <= hp <= maxHp`. -/
theorem hp_bound_invariant (b : Battle) (hb : hpInvariant b) :
    (∀ (rand : Nat → ℚ) (actorId targetId : Nat) (logs : List LogEntry) (updates : Updates),
        hpInvariant (processAttack rand b actorId targetId logs updates).battle)
    ∧ (∀ (actorId : Nat) (logs : List LogEntry),
        hpInvariant (processDefend b actorId logs).battle)
    ∧ (∀ (actorId : Nat) (logs : List LogEntry),
        hpInvariant (processPass b actorId logs).battle)
    ∧ (∀ (actorId : Nat) (logs : List LogEntry),
        hpInvariant (processDodge b actorId logs).battle)
    ∧ (∀ (rand : Nat → ℚ) (actorId : Nat) (itemType : String) (targetId : Option Nat)
        (logs : List LogEntry) (updates : Updates),
        hpInvariant (processItem rand b actorId itemType targetId logs updates).battle) :=
  ⟨fun rand actorId targetId logs updates =>
      processAttack_hpInvariant rand b actorId targetId logs updates hb,
    fun actorId logs => processDefend_hpInvariant b actorId logs hb,
    fun actorId logs => processPass_hpInvariant b actorId logs hb,
    fun actorId logs => processDodge_hpInvariant b actorId logs hb,
    fun rand actorId itemType targetId logs updates =>
      processItem_hpInvariant rand b actorId itemType targetId logs updates hb⟩

theorem duel_hpInvariant : hpInvariant duel := by
  intro p hp
  have : p = duelAttacker ∨ p = duelTarget := by
    simpa [duel, freshBattle, constructor, playersOf] using hp
  rcases this with rfl | rfl
  · exact ⟨100, rfl, by decide, by decide, by decide⟩
  · exact ⟨100, rfl, by decide, by decide, by decide⟩

/-- The bound on the damage scenario: it holds before and after the critical hit. -/
theorem hp_bound_invariant_witness :
    hpInvariant duel ∧ hpInvariant (processAttack always20 duel 1 2 [] ⟨none⟩).battle :=
  ⟨duel_hpInvariant, (hp_bound_invariant duel duel_hpInvariant).1 always20 1 2 [] ⟨none⟩⟩

/-! ## Win evaluation -/

theorem foldl_add_eq_sum (g : Player → Int) (l : List Player) (s : Int) :
    l.foldl (fun s p => s + g p) s = s + (l.map g).sum := by
  induction l generalizing s with
  | nil => simp
  | cons p rest ih => simp [List.foldl_cons, ih, add_assoc]

/-- The `reduce` of `determineWinner` is the sum of the hp of the team's members. -/
theorem hpSum_eq_sum (b : Battle) (team : Team) :
    hpSum b team
      = (((playersOf b).filter (fun p => decide (p.team = team))).map (fun p => p.hp)).sum := by
  unfold hpSum
  rw [foldl_add_eq_sum]
  simp

/-- The tie-break chain of `determineWinner` over the counts and sums the code computes. -/
theorem determineWinner_chain_code (b : Battle) :
    ((getAlivePlayersInTeam b (some Team.A)).length
        > (getAlivePlayersInTeam b (some Team.B)).length → determineWinner b = Team.A)
    ∧ ((getAlivePlayersInTeam b (some Team.A)).length
        < (getAlivePlayersInTeam b (some Team.B)).length → determineWinner b = Team.B)
    ∧ ((getAlivePlayersInTeam b (some Team.A)).length
        = (getAlivePlayersInTeam b (some Team.B)).length →
      (hpSum b Team.A > hpSum b Team.B → determineWinner b = Team.A)
      ∧ (hpSum b Team.A < hpSum b Team.B → determineWinner b = Team.B)
      ∧ (hpSum b Team.A = hpSum b Team.B →
        (∀ l, b.lastAttackerTeam = some l → determineWinner b = l)
        ∧ (b.lastAttackerTeam = none →
          (∀ c, b.currentTeam = some c → determineWinner b = c)
          ∧ (b.currentTeam = none →
            (∀ f, b.firstTeam = some f → determineWinner b = f)
            ∧ (b.firstTeam = none →
              ∀ o, b.turn.order[0]? = some o → determineWinner b = o))))) := by
  refine ⟨fun h => ?_, fun h => ?_, fun h => ⟨fun h2 => ?_, fun h2 => ?_, fun h2 =>
    ⟨fun l hl => ?_, fun hl => ⟨fun c hc => ?_, fun hc => ⟨fun f hf => ?_,
      fun hf o ho => ?_⟩⟩⟩⟩⟩
  · simp [determineWinner, ne_of_gt h, h]
  · simp [determineWinner, ne_of_lt h, not_lt_of_gt h]
  · simp [determineWinner, h, ne_of_gt h2, h2]
  · simp [determineWinner, h, ne_of_lt h2, not_lt_of_gt h2]
  · simp [determineWinner, h, h2, hl]
  · simp [determineWinner, h, h2, hl, hc]
  · simp [determineWinner, h, h2, hl, hc, hf]
  · simp [determineWinner, h, h2, hl, hc, hf, ho]

theorem getAlive_length_eq_zero (b : Battle) (team : Team) :
    (getAlivePlayersInTeam b (some team)).length = 0
      ↔ ∀ p ∈ playersOf b, p.team = team → ¬ 0 < p.hp := by
  unfold getAlivePlayersInTeam
  rw [List.length_eq_zero, List.filter_eq_nil_iff]
  constructor
  · intro h p hp ht hpos
    exact h p hp (by simp [ht, hpos])
  · intro h p hp hc
    simp only [Bool.and_eq_true, decide_eq_true_eq, Option.some.injEq, gt_iff_lt] at hc
    exact h p hp hc.1 hc.2

/-- C7. Battle-over condition: `isBattleOver` returns true exactly when team A has no
player with hp above 0, or team B has none, or `turn.round > maxTurns`.  It is a function
of the battle record alone. -/
theorem isBattleOver_iff (b : Battle) :
    isBattleOver b = true
      ↔ ((∀ p ∈ playersOf b, p.team = Team.A → ¬ 0 < p.hp)
        ∨ (∀ p ∈ playersOf b, p.team = Team.B → ¬ 0 < p.hp)
        ∨ b.turn.round > b.maxTurns) := by
  rw [← getAlive_length_eq_zero, ← getAlive_length_eq_zero]
  unfold isBattleOver
  simp only []
  by_cases h : (getAlivePlayersInTeam b (some Team.A)).length = 0
      ∨ (getAlivePlayersInTeam b (some Team.B)).length = 0
  · simp only [h, if_true, true_iff]
    rcases h with h | h
    · exact Or.inl h
    · exact Or.inr (Or.inl h)
  · simp only [h, if_false]
    push_neg at h
    by_cases hr : b.turn.round > b.maxTurns
    · simp [hr]
    · simp [hr, h.1, h.2]

/-! ## advancePhase -/

/-- The loop of `advancePhase` finds every living member of the active team in its acted
set exactly when the acting requirement of the specification holds. -/
theorem turnComplete_iff (b : Battle) :
    ((getAlivePlayersInTeam b (getCurrentActiveTeam b)).map (fun p => p.id)).all
        (fun id => decide (id ∈ actedOf b (getCurrentActiveTeam b))) = true
      ↔ ∀ p ∈ playersOf b, some p.team = b.currentTeam → 0 < p.hp →
          p.id ∈ actedOf b b.currentTeam := by
  simp only [getAlivePlayersInTeam, getCurrentActiveTeam, List.all_eq_true, List.mem_map,
    List.mem_filter, Bool.and_eq_true, decide_eq_true_eq, gt_iff_lt]
  constructor
  · intro h p hp ht hpos
    exact h p.id ⟨p, ⟨hp, ht, hpos⟩, rfl⟩
  · rintro h _ ⟨p, ⟨hp, ht, hpos⟩, rfl⟩
    exact h p hp ht hpos

/-- C8. `advancePhase` is a no-op while someone still has to act: if some player of
`currentTeam` has hp above 0 and is not in `turn.acted[currentTeam]`, it returns
`{turnComplete: false, phaseComplete: false}` and the battle record, with `phaseIndex`,
`round`, `currentTeam`, `timeLeft`, `turn.order`, both acted sets and all players, is
unchanged. -/
theorem advancePhase_noop (b : Battle)
    (h : ∃ p ∈ playersOf b, some p.team = b.currentTeam ∧ 0 < p.hp
      ∧ p.id ∉ actedOf b b.currentTeam) :
    advancePhase b = (b, ⟨false, false⟩) := by
  have hn : ¬ (((getAlivePlayersInTeam b (getCurrentActiveTeam b)).map (fun p => p.id)).all
      (fun id => decide (id ∈ actedOf b (getCurrentActiveTeam b))) = true) := by
    rw [turnComplete_iff]
    obtain ⟨p, hp, ht, hpos, hna⟩ := h
    exact fun hall => hna (hall p hp ht hpos)
  unfold advancePhase
  simp only [hn, Bool.false_eq_true, if_false]

/-- C8, the scenario: the four living members of team A have acted, the one living member
of the active team B has not. -/
theorem advancePhase_noop_witness : advancePhase fourVsOne = (fourVsOne, ⟨false, false⟩) :=
  advancePhase_noop fourVsOne
    ⟨mkPlayer 5 "Bob" Team.B none, by decide, by decide, by decide, by decide⟩

/-- C9. `advancePhase` transition: if every living member of `currentTeam` is in
`turn.acted[currentTeam]`, then `phaseComplete` is true, `phaseIndex` grows by exactly 1,
`currentTeam` becomes the entry of the pre-call `turn.order` at index new `phaseIndex`
mod 2, `timeLeft` becomes 300; when the new `phaseIndex` is even, `round` grows by
exactly 1, both acted sets become empty and `turn.order` is reversed; when it is odd,
`round`, the acted sets and `turn.order` are unchanged; the players are unchanged. -/
theorem advancePhase_transition (b : Battle)
    (h : ∀ p ∈ playersOf b, some p.team = b.currentTeam → 0 < p.hp →
      p.id ∈ actedOf b b.currentTeam) :
    (advancePhase b).2.phaseComplete = true
    ∧ (advancePhase b).1.turn.phaseIndex = b.turn.phaseIndex + 1
    ∧ (advancePhase b).1.currentTeam = b.turn.order[(b.turn.phaseIndex + 1) % 2]?
    ∧ (advancePhase b).1.timeLeft = 300
    ∧ ((b.turn.phaseIndex + 1) % 2 = 0 →
        (advancePhase b).1.turn.round = b.turn.round + 1
        ∧ (advancePhase b).1.turn.acted = ⟨∅, ∅⟩
        ∧ (advancePhase b).1.turn.order = b.turn.order.reverse)
    ∧ ((b.turn.phaseIndex + 1) % 2 = 1 →
        (advancePhase b).1.turn.round = b.turn.round
        ∧ (advancePhase b).1.turn.acted = b.turn.acted
        ∧ (advancePhase b).1.turn.order = b.turn.order)
    ∧ (advancePhase b).1.players = b.players := by
  have hc := (turnComplete_iff b).mpr h
  unfold advancePhase
  simp only [hc, if_true]
  refine ⟨trivial, ?_, trivial, trivial, ?_, ?_, trivial⟩
  · split_ifs <;> rfl
  · intro he
    simp only [he, if_true, and_self]
  · intro ho
    have hne : ¬ (b.turn.phaseIndex + 1) % 2 = 0 := by omega
    simp only [hne, if_false, and_self]

/-- C9, a concrete transition: once the last member of team B has acted, the phase index
goes from 1 to 2, team A becomes active, the round goes from 1 to 2, the acted sets are
emptied and the order is reversed. -/
theorem advancePhase_transition_witness :
    (advancePhase fourVsOneActed).2.phaseComplete = true
    ∧ (advancePhase fourVsOneActed).1.turn.phaseIndex = 2
    ∧ (advancePhase fourVsOneActed).1.currentTeam = some Team.A
    ∧ (advancePhase fourVsOneActed).1.timeLeft = 300
    ∧ (advancePhase fourVsOneActed).1.turn.round = 2
    ∧ (advancePhase fourVsOneActed).1.turn.acted = ⟨∅, ∅⟩
    ∧ (advancePhase fourVsOneActed).1.turn.order = [Team.B, Team.A]
    ∧ (advancePhase fourVsOneActed).1.players = fourVsOneActed.players := by
  have h := advancePhase_transition fourVsOneActed (by decide)
  exact ⟨h.1, h.2.1, h.2.2.1, h.2.2.2.1, (h.2.2.2.2.1 (by decide)).1,
    (h.2.2.2.2.1 (by decide)).2.1, (h.2.2.2.2.1 (by decide)).2.2, h.2.2.2.2.2.2⟩

/-- C10, the code at the failing input: from the default initial turn state, after the
phases 0 and 1 have completed team A is active at phase index 2, and after that phase has
completed team A is active again at phase index 3, both in round 2; `getBattleStats`
meanwhile reports the phases as A and B. -/
theorem round_two_same_team :
    duel.turn = ⟨[Team.A, Team.B], 0, 1, ⟨∅, ∅⟩⟩ ∧ duel.currentTeam = some Team.A
    ∧ duelAfterTwoPhases.turn.phaseIndex = 2 ∧ duelAfterTwoPhases.turn.round = 2
    ∧ duelAfterTwoPhases.currentTeam = some Team.A
    ∧ duelAfterThreePhases.turn.phaseIndex = 3 ∧ duelAfterThreePhases.turn.round = 2
    ∧ duelAfterThreePhases.currentTeam = some Team.A
    ∧ (getBattleStats duelAfterTwoPhases).phase = Team.A
    ∧ (getBattleStats duelAfterThreePhases).phase = Team.B := by
  decide

/-! ## Positions in the player list -/

theorem getElem?_modifyFirst (ps : List Player) (i : Nat) (f : Player → Player) (k : Nat) :
    (modifyFirst ps i f)[k]?
      = if k = ps.findIdx (fun p => decide (p.id = i)) then (ps[k]?).map f else ps[k]? := by
  induction ps generalizing k with
  | nil => simp [modifyFirst]
  | cons p rest ih =>
    by_cases hp : p.id = i
    · cases k with
      | zero => simp [modifyFirst, hp, List.findIdx_cons]
      | succ k => simp [modifyFirst, hp, List.findIdx_cons]
    · cases k with
      | zero => simp [modifyFirst, hp, List.findIdx_cons]
      | succ k => simp [modifyFirst, hp, List.findIdx_cons, ih]

theorem findIdx_modifyFirst (ps : List Player) (i j : Nat) (f : Player → Player)
    (hf : ∀ p, (f p).id = p.id) :
    (modifyFirst ps i f).findIdx (fun p => decide (p.id = j))
      = ps.findIdx (fun p => decide (p.id = j)) := by
  induction ps with
  | nil => simp [modifyFirst]
  | cons p rest ih =>
    by_cases hp : p.id = i
    · simp [modifyFirst, hp, List.findIdx_cons, hf]
    · simp [modifyFirst, hp, List.findIdx_cons, ih]

theorem playerAt_mutatePlayer (b : Battle) (i : Nat) (f : Player → Player) (k : Nat) :
    playerAt (mutatePlayer b i f) k
      = if k = playerIndex b i then (playerAt b k).map f else playerAt b k := by
  unfold playerAt playerIndex mutatePlayer playersOf
  cases hps : b.players with
  | none => simp
  | some ps => simpa using getElem?_modifyFirst ps i f k

theorem playerIndex_mutatePlayer (b : Battle) (i j : Nat) (f : Player → Player)
    (hf : ∀ p, (f p).id = p.id) :
    playerIndex (mutatePlayer b i f) j = playerIndex b j := by
  unfold playerIndex mutatePlayer playersOf
  cases hps : b.players with
  | none => simp
  | some ps => simpa using findIdx_modifyFirst ps i j f hf

theorem find?_eq_getElem?_findIdx (ps : List Player) (i : Nat) :
    ps.find? (fun p => decide (p.id = i)) = ps[ps.findIdx (fun p => decide (p.id = i))]? := by
  induction ps with
  | nil => simp
  | cons p rest ih =>
    by_cases hp : p.id = i
    · simp [List.find?_cons, List.findIdx_cons, hp]
    · simp [List.find?_cons, List.findIdx_cons, hp, ih]

theorem findPlayer_eq_playerAt (b : Battle) (i : Nat) :
    findPlayer b i = playerAt b (playerIndex b i) :=
  find?_eq_getElem?_findIdx (playersOf b) i

theorem mem_playersOf_iff (b : Battle) (p : Player) :
    p ∈ playersOf b ↔ ∃ k, playerAt b k = some p := by
  unfold playerAt
  exact List.mem_iff_getElem?

theorem playerAt_mem {b : Battle} {k : Nat} {p : Player} (h : playerAt b k = some p) :
    p ∈ playersOf b := (mem_playersOf_iff b p).mpr ⟨k, h⟩

theorem playerAt_of_players {b b' : Battle} (h : b'.players = b.players) (k : Nat) :
    playerAt b' k = playerAt b k := by
  simp only [playerAt, playersOf, h]

theorem playerIndex_of_players {b b' : Battle} (h : b'.players = b.players) (i : Nat) :
    playerIndex b' i = playerIndex b i := by
  simp only [playerIndex, playersOf, h]

/-- The outcome of an attack that is fully evaded. -/
theorem processAttack_miss (rand : Nat → ℚ) (b : Battle) (actorId targetId : Nat)
    (logs : List LogEntry) (updates : Updates) (a t : Player)
    (ha : findPlayer b actorId = some a) (ht : findPlayer b targetId = some t)
    (hteam : a.team ≠ t.team) (hhp : 0 < t.hp)
    (hev : (_readStats t).agility + _randD20 (rand 1)
      ≥ (_readStats a).attack + _randD20 (rand 0)) :
    processAttack rand b actorId targetId logs updates
      = ⟨true, b, logs ++ [⟨"combat", a.name ++ "의 공격을 " ++ t.name ++ "이(가) 완전회피!"⟩],
          updates, 2⟩ := by
  have hnle : ¬ t.hp ≤ 0 := not_le.mpr hhp
  simp only [processAttack, ha, ht, hteam, hnle, hev, if_false, if_true]

/-- The battle record after `processAttack`: untouched, or the target rewritten (hp and
defend flag at most) and `lastAttackerTeam` set. -/
theorem processAttack_battle (rand : Nat → ℚ) (b : Battle) (actorId targetId : Nat)
    (logs : List LogEntry) (updates : Updates) :
    (processAttack rand b actorId targetId logs updates).battle = b
    ∨ ∃ (a t : Player) (hp : Int), findPlayer b actorId = some a
        ∧ findPlayer b targetId = some t
        ∧ (processAttack rand b actorId targetId logs updates).battle
          = { mutatePlayer b targetId (fun p =>
                { p with hp := hp, _defend := if t._defend then false else p._defend }) with
              lastAttackerTeam := some a.team } := by
  cases ha : findPlayer b actorId with
  | none => left; simp [processAttack, ha]
  | some a =>
    cases ht : findPlayer b targetId with
    | none => left; simp [processAttack, ha, ht]
    | some t =>
      by_cases hteam : a.team = t.team
      · left; simp [processAttack, ha, ht, hteam]
      · by_cases h0 : t.hp ≤ 0
        · left; simp [processAttack, ha, ht, hteam, h0]
        · by_cases hev : (_readStats t).agility + _randD20 (rand 1)
              ≥ (_readStats a).attack + _randD20 (rand 0)
          · left
            rw [processAttack_miss rand b actorId targetId logs updates a t ha ht hteam
              (not_le.mp h0) hev]
          · right
            rw [processAttack_hit rand b actorId targetId logs updates a t ha ht hteam
              (not_le.mp h0) (not_le.mp hev) _ _ rfl rfl]
            exact ⟨a, t, _, rfl, rfl, rfl⟩

/-! ## What the actions leave alone -/

theorem team_findPlayer_mutatePlayer (b : Battle) (i j : Nat) (f : Player → Player)
    (hid : ∀ p, (f p).id = p.id) (hteam : ∀ p, (f p).team = p.team) :
    (findPlayer (mutatePlayer b i f) j).map (fun p => p.team)
      = (findPlayer b j).map (fun p => p.team) := by
  rw [findPlayer_mutatePlayer b i j f hid]
  split_ifs
  · cases findPlayer b j with
    | none => rfl
    | some p => simp [hteam]
  · rfl

theorem processAttack_turn (rand : Nat → ℚ) (b : Battle) (actorId targetId : Nat)
    (logs : List LogEntry) (updates : Updates) :
    (processAttack rand b actorId targetId logs updates).battle.turn = b.turn := by
  rcases processAttack_battle rand b actorId targetId logs updates with h | ⟨a, t, hp, _, _, h⟩
  · rw [h]
  · rw [h]; rfl

theorem processAttack_team (rand : Nat → ℚ) (b : Battle) (actorId targetId : Nat)
    (logs : List LogEntry) (updates : Updates) (j : Nat) :
    (findPlayer (processAttack rand b actorId targetId logs updates).battle j).map
        (fun p => p.team) = (findPlayer b j).map (fun p => p.team) := by
  rcases processAttack_battle rand b actorId targetId logs updates with h | ⟨a, t, hp, _, _, h⟩
  · rw [h]
  · rw [h, findPlayer_of_players (b := mutatePlayer b targetId _) (by exact rfl)]
    exact team_findPlayer_mutatePlayer b targetId j _ (fun _ => rfl) (fun _ => rfl)

theorem processItem_turn (rand : Nat → ℚ) (b : Battle) (actorId : Nat) (itemType : String)
    (targetId : Option Nat) (logs : List LogEntry) (updates : Updates) :
    (processItem rand b actorId itemType targetId logs updates).battle.turn = b.turn := by
  unfold processItem
  cases findPlayer b actorId with
  | none => rfl
  | some a0 =>
    simp only []
    split_ifs <;> rfl

theorem processItem_team (rand : Nat → ℚ) (b : Battle) (actorId : Nat) (itemType : String)
    (targetId : Option Nat) (logs : List LogEntry) (updates : Updates) (j : Nat) :
    (findPlayer (processItem rand b actorId itemType targetId logs updates).battle j).map
        (fun p => p.team) = (findPlayer b j).map (fun p => p.team) := by
  unfold processItem
  cases findPlayer b actorId with
  | none => rfl
  | some a0 =>
    simp only []
    split_ifs
    all_goals (repeat rw [team_findPlayer_mutatePlayer])
    all_goals (first | rfl | (intro p; rfl))

/-! ## Call sequences -/

theorem runOps_append (b : Battle) (ops : List Op) (op : Op) :
    runOps b (ops ++ [op]) = applyOp (runOps b ops) op := by
  simp [runOps, List.foldl_append]

/-- A property of the initial record that every call preserves holds after every
sequence of calls. -/
theorem runOps_invariant (P : Battle → Prop) (hstep : ∀ b op, P b → P (applyOp b op))
    (b : Battle) (hb : P b) (ops : List Op) : P (runOps b ops) := by
  induction ops generalizing b with
  | nil => exact hb
  | cons op rest ih => exact ih (applyOp b op) (hstep b op hb)

theorem processDefend_turn (b : Battle) (actorId : Nat) (logs : List LogEntry) :
    (processDefend b actorId logs).battle.turn = b.turn := by
  unfold processDefend
  cases findPlayer b actorId <;> rfl

theorem processPass_battle (b : Battle) (actorId : Nat) (logs : List LogEntry) :
    (processPass b actorId logs).battle = b := by
  unfold processPass
  cases findPlayer b actorId <;> rfl

theorem processDodge_turn (b : Battle) (actorId : Nat) (logs : List LogEntry) :
    (processDodge b actorId logs).battle.turn = b.turn := by
  unfold processDodge
  cases findPlayer b actorId <;> rfl

theorem processDefend_team (b : Battle) (actorId : Nat) (logs : List LogEntry) (j : Nat) :
    (findPlayer (processDefend b actorId logs).battle j).map (fun p => p.team)
      = (findPlayer b j).map (fun p => p.team) := by
  unfold processDefend
  cases findPlayer b actorId with
  | none => rfl
  | some a => exact team_findPlayer_mutatePlayer b actorId j _ (fun _ => rfl) (fun _ => rfl)

theorem processDodge_team (b : Battle) (actorId : Nat) (logs : List LogEntry) (j : Nat) :
    (findPlayer (processDodge b actorId logs).battle j).map (fun p => p.team)
      = (findPlayer b j).map (fun p => p.team) := by
  unfold processDodge
  cases findPlayer b actorId with
  | none => rfl
  | some a => exact team_findPlayer_mutatePlayer b actorId j _ (fun _ => rfl) (fun _ => rfl)

theorem recordPlayerAction_counters (b : Battle) (playerId : Nat) :
    (recordPlayerAction b playerId).turn.phaseIndex = b.turn.phaseIndex
    ∧ (recordPlayerAction b playerId).turn.round = b.turn.round := by
  unfold recordPlayerAction
  cases findPlayer b playerId <;> exact ⟨rfl, rfl⟩

theorem advancePhase_counters (b : Battle) :
    ((advancePhase b).1.turn.phaseIndex = b.turn.phaseIndex
      ∧ (advancePhase b).1.turn.round = b.turn.round)
    ∨ ((advancePhase b).1.turn.phaseIndex = b.turn.phaseIndex + 1
      ∧ (advancePhase b).1.turn.round
        = b.turn.round + (if (b.turn.phaseIndex + 1) % 2 = 0 then 1 else 0)) := by
  unfold advancePhase
  simp only []
  split_ifs
  all_goals first
    | exact Or.inl ⟨rfl, rfl⟩
    | exact Or.inr ⟨rfl, rfl⟩
    | exact Or.inr ⟨rfl, (add_zero _).symm⟩

/-- Every call leaves both counters alone or moves `phaseIndex` up by one, and then
`round` up by one exactly when the new `phaseIndex` is even. -/
theorem applyOp_counters (b : Battle) (op : Op) :
    ((applyOp b op).turn.phaseIndex = b.turn.phaseIndex
      ∧ (applyOp b op).turn.round = b.turn.round)
    ∨ ((applyOp b op).turn.phaseIndex = b.turn.phaseIndex + 1
      ∧ (applyOp b op).turn.round
        = b.turn.round + (if (b.turn.phaseIndex + 1) % 2 = 0 then 1 else 0)) := by
  cases op with
  | attack rand actorId targetId logs updates =>
    left; simp only [applyOp, processAttack_turn, and_self]
  | defend actorId logs => left; simp only [applyOp, processDefend_turn, and_self]
  | pass actorId logs => left; simp only [applyOp, processPass_battle, and_self]
  | dodge actorId logs => left; simp only [applyOp, processDodge_turn, and_self]
  | item rand actorId itemType targetId logs updates =>
    left; simp only [applyOp, processItem_turn, and_self]
  | record playerId => left; exact recordPlayerAction_counters b playerId
  | advance => exact advancePhase_counters b

/-- C11. Round and phase counters stay in step: from an initial turn state with
`phaseIndex` 0 and `round` 1, after every finite sequence of engine calls (the five
actions, `recordPlayerAction`, `advancePhase`, with any arguments)
`round = 1 + floor(phaseIndex / 2)`; and no single call, on any record, decreases
`phaseIndex` or `round`. -/
theorem counters_in_step (b0 : Battle) (hpi : b0.turn.phaseIndex = 0)
    (hround : b0.turn.round = 1) (ops : List Op) :
    (runOps b0 ops).turn.round = 1 + (((runOps b0 ops).turn.phaseIndex / 2 : Nat) : Int)
    ∧ (∀ (b : Battle) (op : Op), b.turn.phaseIndex ≤ (applyOp b op).turn.phaseIndex
        ∧ b.turn.round ≤ (applyOp b op).turn.round) := by
  constructor
  · refine runOps_invariant
      (fun b => b.turn.round = 1 + ((b.turn.phaseIndex / 2 : Nat) : Int)) ?_ b0 ?_ ops
    · intro b op hb
      rcases applyOp_counters b op with ⟨h1, h2⟩ | ⟨h1, h2⟩
      · show (applyOp b op).turn.round = 1 + (((applyOp b op).turn.phaseIndex / 2 : Nat) : Int)
        rw [h1, h2]; exact hb
      · show (applyOp b op).turn.round = 1 + (((applyOp b op).turn.phaseIndex / 2 : Nat) : Int)
        rw [h1, h2, hb]
        split_ifs with he <;> omega
    · show b0.turn.round = 1 + ((b0.turn.phaseIndex / 2 : Nat) : Int)
      rw [hpi, hround]; rfl
  · intro b op
    rcases applyOp_counters b op with ⟨h1, h2⟩ | ⟨h1, h2⟩
    · rw [h1, h2]; exact ⟨le_refl _, le_refl _⟩
    · rw [h1, h2]
      refine ⟨Nat.le_succ _, ?_⟩
      split_ifs <;> omega

/-- C11 on the damage scenario: after a round in which both players act and both phases
are advanced, the counters are in step (`phaseIndex` 2, `round` 2). -/
theorem counters_in_step_witness :
    (runOps duel quietRound).turn.phaseIndex = 2
    ∧ (runOps duel quietRound).turn.round
      = 1 + (((runOps duel quietRound).turn.phaseIndex / 2 : Nat) : Int) :=
  ⟨by decide, (counters_in_step duel (by decide) (by decide) quietRound).1⟩

/-! ## Acted sets -/

theorem actedAreMembers_of_frame {b b' : Battle} (hturn : b'.turn = b.turn)
    (hteam : ∀ j, (findPlayer b' j).map (fun p => p.team)
      = (findPlayer b j).map (fun p => p.team))
    (hb : actedAreMembers b) : actedAreMembers b' := by
  intro team id hid
  rw [hturn] at hid
  rw [hteam]
  exact hb team id hid

theorem mem_acted_set (a : Acted) (t team : Team) (s : Finset Nat) (id : Nat)
    (h : id ∈ (a.set t s).get team) : (team = t ∧ id ∈ s) ∨ id ∈ a.get team := by
  cases t <;> cases team <;> simp [Acted.set, Acted.get] at h ⊢ <;> tauto

theorem recordPlayerAction_actedAreMembers (b : Battle) (playerId : Nat)
    (hb : actedAreMembers b) : actedAreMembers (recordPlayerAction b playerId) := by
  unfold recordPlayerAction
  cases hp : findPlayer b playerId with
  | none => exact hb
  | some p =>
    intro team id hid
    have hfind : ∀ j, findPlayer
        { b with turn := { b.turn with
            acted := b.turn.acted.set p.team (insert p.id (b.turn.acted.get p.team)) } } j
        = findPlayer b j := fun j => findPlayer_of_players rfl j
    rw [hfind]
    rcases mem_acted_set _ _ _ _ _ hid with ⟨rfl, hin⟩ | hold
    · rcases Finset.mem_insert.mp hin with rfl | hin'
      · have := findPlayer_id hp
        rw [this, hp]; rfl
      · exact hb _ _ hin'
    · exact hb _ _ hold

theorem advancePhase_actedAreMembers (b : Battle) (hb : actedAreMembers b) :
    actedAreMembers (advancePhase b).1 := by
  unfold advancePhase
  simp only []
  split_ifs with h1 h2
  · intro team id hid
    cases team <;> simp [Acted.get] at hid
  · exact actedAreMembers_of_frame rfl (fun j => findPlayer_of_players rfl j ▸ rfl) hb
  · exact hb

theorem applyOp_actedAreMembers (b : Battle) (op : Op) (hb : actedAreMembers b) :
    actedAreMembers (applyOp b op) := by
  cases op with
  | attack rand actorId targetId logs updates =>
    exact actedAreMembers_of_frame (processAttack_turn ..)
      (fun j => processAttack_team rand b actorId targetId logs updates j) hb
  | defend actorId logs =>
    exact actedAreMembers_of_frame (processDefend_turn ..)
      (fun j => processDefend_team b actorId logs j) hb
  | pass actorId logs =>
    show actedAreMembers (processPass b actorId logs).battle
    rw [processPass_battle]; exact hb
  | dodge actorId logs =>
    exact actedAreMembers_of_frame (processDodge_turn ..)
      (fun j => processDodge_team b actorId logs j) hb
  | item rand actorId itemType targetId logs updates =>
    exact actedAreMembers_of_frame (processItem_turn ..)
      (fun j => processItem_team rand b actorId itemType targetId logs updates j) hb
  | record playerId => exact recordPlayerAction_actedAreMembers b playerId hb
  | advance => exact advancePhase_actedAreMembers b hb

/-- C12 as amended. In every state reached from an initial state with empty acted sets by
any sequence of engine calls, every id in `turn.acted[T]` is the id of a player of team
`T`, the one `find` returns for that id; nothing is claimed about that player's hp. -/
theorem acted_are_team_members (b0 : Battle) (h0 : b0.turn.acted = ⟨∅, ∅⟩) (ops : List Op)
    (team : Team) (id : Nat) (hid : id ∈ (runOps b0 ops).turn.acted.get team) :
    ∃ p ∈ playersOf (runOps b0 ops),
      findPlayer (runOps b0 ops) id = some p ∧ p.id = id ∧ p.team = team := by
  have hinit : actedAreMembers b0 := by
    intro team id hid
    rw [h0] at hid
    cases team <;> simp [Acted.get] at hid
  have h := runOps_invariant actedAreMembers applyOp_actedAreMembers b0 hinit ops team id hid
  cases hp : findPlayer (runOps b0 ops) id with
  | none => rw [hp] at h; cases h
  | some p =>
    rw [hp] at h
    exact ⟨p, findPlayer_mem hp, rfl, findPlayer_id hp, Option.some.inj h⟩

/-- C12 as amended, on the skirmish: Ann's id is in team A's acted set and names Ann. -/
theorem acted_are_team_members_witness :
    ∃ p ∈ playersOf (runOps skirmish skirmishOps),
      findPlayer (runOps skirmish skirmishOps) 1 = some p ∧ p.id = 1 ∧ p.team = Team.A :=
  acted_are_team_members skirmish (by decide) skirmishOps Team.A 1
    (by
      show 1 ∈ (applyOp skirmishPhaseB (Op.attack always20 2 1 [] ⟨none⟩)).turn.acted.get Team.A
      rw [show (applyOp skirmishPhaseB (Op.attack always20 2 1 [] ⟨none⟩)).turn
        = skirmishPhaseB.turn from processAttack_turn ..]
      decide)

/-- The attack of the skirmish: Bob's critical hit of 48 takes Ann's 10 hp to 0. -/
theorem skirmish_attack :
    (processAttack always20 skirmishPhaseB 2 1 [] ⟨none⟩).battle
      = { mutatePlayer skirmishPhaseB 1 (fun p => { p with hp := 0, _defend := p._defend }) with
          lastAttackerTeam := some Team.B } := by
  have hd : specAttackDamage (_readStats strongBob) (_readStats frailAnn) frailAnn._defend
      (_randD20 (always20 2)) (_randD20 (always20 3)) (_randD20 (always20 4)) = 48 := by
    simp only [always20_roll]
    norm_num [specAttackDamage, _readStats, statsOf, _clamp, numOr0, strongBob, frailAnn,
      mkPlayer]
  rw [processAttack_hit always20 skirmishPhaseB 2 1 [] ⟨none⟩ strongBob frailAnn
    (by decide) (by decide) (by decide) (by decide)
    (by simp only [always20_roll]; decide) 48 0 hd.symm (by decide)]
  rfl

/-- C12, the counterexample: from empty acted sets, Ann acts and is recorded, her phase is
advanced, and Bob's attack defeats her; her id is still in `turn.acted[A]` while her hp
is 0, and no other player carries that id. -/
theorem acted_holds_defeated_player :
    skirmish.turn.acted = ⟨∅, ∅⟩
    ∧ 1 ∈ (runOps skirmish skirmishOps).turn.acted.get Team.A
    ∧ ∀ p ∈ playersOf (runOps skirmish skirmishOps), p.id = 1 → ¬ 0 < p.hp := by
  have hrun : runOps skirmish skirmishOps
      = { mutatePlayer skirmishPhaseB 1 (fun p => { p with hp := 0, _defend := p._defend }) with
          lastAttackerTeam := some Team.B } := skirmish_attack
  rw [hrun]
  decide

/-! ## processItem -/

theorem itemCount_pos_cases (a0 : Player) (itemType : String) (h : 0 < itemCount a0 itemType) :
    (itemType = "dittany" ∧ 0 < numOr0 (a0.items.getD defaultItems).dittany)
    ∨ (itemType = "attack_boost" ∧ 0 < numOr0 (a0.items.getD defaultItems).attack_boost)
    ∨ (itemType = "defense_boost"
      ∧ 0 < numOr0 (a0.items.getD defaultItems).defense_boost) := by
  unfold itemCount at h
  simp only [] at h
  split_ifs at h with h1 h2 h3
  · exact Or.inl ⟨h1, h⟩
  · exact Or.inr (Or.inl ⟨h2, h⟩)
  · exact Or.inr (Or.inr ⟨h3, h⟩)
  · exact absurd h (lt_irrefl _)

/-- The outcome of `processItem` for an unknown actor. -/
theorem processItem_unknown (rand : Nat → ℚ) (b : Battle) (actorId : Nat) (itemType : String)
    (targetId : Option Nat) (logs : List LogEntry) (updates : Updates)
    (ha : findPlayer b actorId = none) :
    processItem rand b actorId itemType targetId logs updates = ⟨false, b, logs, updates, 0⟩ := by
  unfold processItem
  rw [ha]

/-- The outcome of `processItem` when the actor exists and holds none of the item, or the
item type is not recognised. -/
theorem processItem_fail (rand : Nat → ℚ) (b : Battle) (actorId : Nat) (itemType : String)
    (targetId : Option Nat) (logs : List LogEntry) (updates : Updates) (a0 : Player)
    (ha : findPlayer b actorId = some a0) (hle : itemCount a0 itemType ≤ 0) :
    ∃ msg : String, processItem rand b actorId itemType targetId logs updates
      = ⟨false, mutatePlayer b actorId
          (fun p => { p with items := some (p.items.getD defaultItems) }),
        logs ++ [⟨"error", msg⟩], updates, 0⟩ := by
  unfold itemCount at hle
  simp only [] at hle
  unfold processItem
  rw [ha]
  simp only []
  by_cases h1 : itemType = "dittany"
  · rw [if_pos h1] at hle
    exact ⟨"디터니가 없습니다", by rw [if_pos h1, if_pos hle]⟩
  · rw [if_neg h1] at hle
    by_cases h2 : itemType = "attack_boost"
    · rw [if_pos h2] at hle
      exact ⟨"공격 보정기가 없습니다", by rw [if_neg h1, if_pos h2, if_pos hle]⟩
    · rw [if_neg h2] at hle
      by_cases h3 : itemType = "defense_boost"
      · rw [if_pos h3] at hle
        exact ⟨"방어 보정기가 없습니다", by rw [if_neg h1, if_neg h2, if_pos h3, if_pos hle]⟩
      · exact ⟨"알 수 없는 아이템", by rw [if_neg h1, if_neg h2, if_neg h3]⟩

/-- With a positive count, `processItem` returns true. -/
theorem processItem_ok_of_pos (rand : Nat → ℚ) (b : Battle) (actorId : Nat)
    (itemType : String) (targetId : Option Nat) (logs : List LogEntry) (updates : Updates)
    (a0 : Player) (ha : findPlayer b actorId = some a0) (hpos : 0 < itemCount a0 itemType) :
    (processItem rand b actorId itemType targetId logs updates).ok = true := by
  unfold processItem
  rw [ha]
  rcases itemCount_pos_cases a0 itemType hpos with ⟨rfl, h⟩ | ⟨rfl, h⟩ | ⟨rfl, h⟩
  · simp only [not_le.mpr h, if_false, if_true]
  · simp only [not_le.mpr h, if_false, if_true,
      show ¬ ("attack_boost" = "dittany") by decide]
    split_ifs <;> rfl
  · simp only [not_le.mpr h, if_false, if_true,
      show ¬ ("defense_boost" = "dittany") by decide,
      show ¬ ("defense_boost" = "attack_boost") by decide]
    split_ifs <;> rfl

theorem itemCount_of_items_eq {p q : Player} (h : q.items = p.items) (ty : String) :
    itemCount q ty = itemCount p ty := by
  unfold itemCount
  rw [h]

theorem itemCount_default (p q : Player) (h : q.items = some (p.items.getD defaultItems))
    (ty : String) : itemCount q ty = itemCount p ty := by
  unfold itemCount
  rw [h]
  rfl

theorem numOr0_map_pred (x : Option Int) (h : 0 < numOr0 x) :
    numOr0 (x.map (fun n => n - 1)) = numOr0 x - 1 := by
  cases x with
  | none => exact absurd h (lt_irrefl _)
  | some n => rfl

theorem count_after_dittany (p q : Player)
    (h : 0 < numOr0 (p.items.getD defaultItems).dittany)
    (hq : q.items = (some (p.items.getD defaultItems)).map
      (fun it => { it with dittany := it.dittany.map (fun n => n - 1) })) :
    itemCount q "dittany" = itemCount p "dittany" - 1
    ∧ ∀ ty, ty ≠ "dittany" → itemCount q ty = itemCount p ty := by
  constructor
  · simp only [itemCount, hq, if_true, Option.map_some', Option.getD_some]
    exact numOr0_map_pred _ h
  · intro ty hty
    simp only [itemCount, hq, hty, if_false, Option.map_some', Option.getD_some]

theorem count_after_attack_boost (p q : Player)
    (h : 0 < numOr0 (p.items.getD defaultItems).attack_boost)
    (hq : q.items = (some (p.items.getD defaultItems)).map
      (fun it => { it with attack_boost := it.attack_boost.map (fun n => n - 1) })) :
    itemCount q "attack_boost" = itemCount p "attack_boost" - 1
    ∧ ∀ ty, ty ≠ "attack_boost" → itemCount q ty = itemCount p ty := by
  constructor
  · simp only [itemCount, hq, if_true, Option.map_some', Option.getD_some,
      show ¬ ("attack_boost" = "dittany") by decide, if_false]
    exact numOr0_map_pred _ h
  · intro ty hty
    simp only [itemCount, hq, hty, if_false, Option.map_some', Option.getD_some]

theorem count_after_defense_boost (p q : Player)
    (h : 0 < numOr0 (p.items.getD defaultItems).defense_boost)
    (hq : q.items = (some (p.items.getD defaultItems)).map
      (fun it => { it with defense_boost := it.defense_boost.map (fun n => n - 1) })) :
    itemCount q "defense_boost" = itemCount p "defense_boost" - 1
    ∧ ∀ ty, ty ≠ "defense_boost" → itemCount q ty = itemCount p ty := by
  constructor
  · simp only [itemCount, hq, if_true, Option.map_some', Option.getD_some,
      show ¬ ("defense_boost" = "dittany") by decide,
      show ¬ ("defense_boost" = "attack_boost") by decide, if_false]
    exact numOr0_map_pred _ h
  · intro ty hty
    simp only [itemCount, hq, hty, if_false, Option.map_some', Option.getD_some]

/-- The players after a successful item use, position by position: the actor's count of
the item used is one lower and nothing else about any item count has changed. -/
theorem processItem_ok_positions (rand : Nat → ℚ) (b : Battle) (actorId : Nat)
    (itemType : String) (targetId : Option Nat) (logs : List LogEntry) (updates : Updates)
    (a0 : Player) (ha : findPlayer b actorId = some a0) (hpos : 0 < itemCount a0 itemType)
    (k : Nat) (p : Player) (hk : playerAt b k = some p) :
    ∃ q, playerAt (processItem rand b actorId itemType targetId logs updates).battle k = some q
      ∧ (k = playerIndex b actorId →
          itemCount q itemType = itemCount p itemType - 1
          ∧ ∀ ty, ty ≠ itemType → itemCount q ty = itemCount p ty)
      ∧ (k ≠ playerIndex b actorId → q.items = p.items) := by
  have hidx : playerAt b (playerIndex b actorId) = some a0 := by
    rw [← findPlayer_eq_playerAt]; exact ha
  unfold processItem
  rw [ha]
  rcases itemCount_pos_cases a0 itemType hpos with ⟨rfl, h⟩ | ⟨rfl, h⟩ | ⟨rfl, h⟩
  · simp only [not_le.mpr h, if_false, if_true]
    simp (disch := (intro _; rfl)) only [playerAt_mutatePlayer, playerIndex_mutatePlayer]
    by_cases hki : k = playerIndex b actorId
    · subst hki
      rw [hidx] at hk
      have hpa : a0 = p := Option.some.inj hk
      subst hpa
      simp only [if_true, hidx, Option.map_some']
      split_ifs
      · exact ⟨_, rfl, fun _ => count_after_dittany a0 _ h rfl, fun hne => absurd rfl hne⟩
      · exact ⟨_, rfl, fun _ => count_after_dittany a0 _ h rfl, fun hne => absurd rfl hne⟩
    · simp only [hki, if_false, hk, Option.map_some']
      split_ifs
      · exact ⟨_, rfl, fun he => False.elim he, fun _ => rfl⟩
      · exact ⟨_, rfl, fun he => False.elim he, fun _ => rfl⟩
  · simp only [not_le.mpr h, if_false, if_true,
      show ¬ ("attack_boost" = "dittany") by decide]
    split_ifs
    all_goals
      simp (disch := (intro _; rfl)) only [playerAt_mutatePlayer, playerIndex_mutatePlayer]
      by_cases hki : k = playerIndex b actorId
      · subst hki
        rw [hidx] at hk
        have hpa : a0 = p := Option.some.inj hk
        subst hpa
        simp only [if_true, hidx, Option.map_some']
        exact ⟨_, rfl, fun _ => count_after_attack_boost a0 _ h rfl, fun hne => absurd rfl hne⟩
      · simp only [hki, if_false, hk]
        exact ⟨_, rfl, fun he => False.elim he, fun _ => rfl⟩
  · simp only [not_le.mpr h, if_false, if_true,
      show ¬ ("defense_boost" = "dittany") by decide,
      show ¬ ("defense_boost" = "attack_boost") by decide]
    split_ifs
    all_goals
      simp (disch := (intro _; rfl)) only [playerAt_mutatePlayer, playerIndex_mutatePlayer]
      by_cases hki : k = playerIndex b actorId
      · subst hki
        rw [hidx] at hk
        have hpa : a0 = p := Option.some.inj hk
        subst hpa
        simp only [if_true, hidx, Option.map_some']
        exact ⟨_, rfl, fun _ => count_after_defense_boost a0 _ h rfl, fun hne => absurd rfl hne⟩
      · simp only [hki, if_false, hk]
        exact ⟨_, rfl, fun he => False.elim he, fun _ => rfl⟩

theorem playerAt_isSome_mutatePlayer (b : Battle) (i : Nat) (f : Player → Player) (k : Nat) :
    (playerAt (mutatePlayer b i f) k).isSome = (playerAt b k).isSome := by
  rw [playerAt_mutatePlayer]
  split_ifs <;> cases playerAt b k <;> rfl

theorem processItem_isSome (rand : Nat → ℚ) (b : Battle) (actorId : Nat) (itemType : String)
    (targetId : Option Nat) (logs : List LogEntry) (updates : Updates) (k : Nat) :
    (playerAt (processItem rand b actorId itemType targetId logs updates).battle k).isSome
      = (playerAt b k).isSome := by
  unfold processItem
  cases findPlayer b actorId with
  | none => rfl
  | some a0 =>
    simp only []
    split_ifs <;> simp only [playerAt_isSome_mutatePlayer]

/-- The players after a failed item use of an existing actor, position by position: hp
and every item count are as before, and only the actor's missing items block may have
been replaced by zero counts. -/
theorem processItem_fail_positions (rand : Nat → ℚ) (b : Battle) (actorId : Nat)
    (itemType : String) (targetId : Option Nat) (logs : List LogEntry) (updates : Updates)
    (a0 : Player) (ha : findPlayer b actorId = some a0) (hle : itemCount a0 itemType ≤ 0)
    (k : Nat) (p : Player) (hk : playerAt b k = some p) :
    ∃ q, playerAt (processItem rand b actorId itemType targetId logs updates).battle k = some q
      ∧ q.hp = p.hp ∧ (∀ ty, itemCount q ty = itemCount p ty)
      ∧ (k ≠ playerIndex b actorId → q = p) := by
  obtain ⟨msg, heq⟩ := processItem_fail rand b actorId itemType targetId logs updates a0 ha hle
  rw [heq]
  simp only [playerAt_mutatePlayer]
  by_cases hki : k = playerIndex b actorId
  · simp only [hki, if_true]
    rw [← hki, hk]
    exact ⟨_, rfl, rfl, fun ty => itemCount_default p _ rfl ty, fun hne => absurd rfl hne⟩
  · simp only [hki, if_false, hk]
    exact ⟨p, rfl, rfl, fun _ => rfl, fun _ => rfl⟩

/-- C13. Item consumption accounting: for an existing actor, when the actor's count of the
item (0 when absent) is 0, `processItem` returns false, appends one "error" entry and
leaves every player's hp and item counts unchanged; when the count is positive, it returns
true and lowers exactly that count of the actor by exactly 1, whatever the draw, leaving
the actor's other counts and every other player's items unchanged.  Hence counts that are
all non-negative before the call are all non-negative after it. -/
theorem item_consumption (rand : Nat → ℚ) (b : Battle) (actorId : Nat)
    (itemType : String) (targetId : Option Nat) (logs : List LogEntry) (updates : Updates)
    (a0 : Player) (ha : findPlayer b actorId = some a0) :
    (itemCount a0 itemType ≤ 0 →
      (processItem rand b actorId itemType targetId logs updates).ok = false
      ∧ (∃ e : LogEntry, e.type = "error"
          ∧ (processItem rand b actorId itemType targetId logs updates).logs = logs ++ [e])
      ∧ ∀ k p, playerAt b k = some p →
          ∃ q, playerAt (processItem rand b actorId itemType targetId logs updates).battle k
              = some q
            ∧ q.hp = p.hp ∧ ∀ ty, itemCount q ty = itemCount p ty)
    ∧ (0 < itemCount a0 itemType →
      (processItem rand b actorId itemType targetId logs updates).ok = true
      ∧ ∀ k p, playerAt b k = some p →
          ∃ q, playerAt (processItem rand b actorId itemType targetId logs updates).battle k
              = some q
            ∧ (k = playerIndex b actorId →
                itemCount q itemType = itemCount p itemType - 1
                ∧ ∀ ty, ty ≠ itemType → itemCount q ty = itemCount p ty)
            ∧ (k ≠ playerIndex b actorId → q.items = p.items))
    ∧ ((∀ p ∈ playersOf b, ∀ ty, 0 ≤ itemCount p ty) →
      ∀ q ∈ playersOf (processItem rand b actorId itemType targetId logs updates).battle,
        ∀ ty, 0 ≤ itemCount q ty) := by
  have hidx : playerAt b (playerIndex b actorId) = some a0 := by
    rw [← findPlayer_eq_playerAt]; exact ha
  refine ⟨fun hle => ?_, fun hpos => ?_, fun hnn q hq ty => ?_⟩
  · obtain ⟨msg, heq⟩ := processItem_fail rand b actorId itemType targetId logs updates a0 ha hle
    refine ⟨by rw [heq], ⟨⟨"error", msg⟩, rfl, by rw [heq]⟩, fun k p hk => ?_⟩
    obtain ⟨q, h1, h2, h3, _⟩ :=
      processItem_fail_positions rand b actorId itemType targetId logs updates a0 ha hle k p hk
    exact ⟨q, h1, h2, h3⟩
  · exact ⟨processItem_ok_of_pos rand b actorId itemType targetId logs updates a0 ha hpos,
      fun k p hk =>
        processItem_ok_positions rand b actorId itemType targetId logs updates a0 ha hpos k p hk⟩
  · obtain ⟨k, hkq⟩ := (mem_playersOf_iff _ q).mp hq
    have hsome : (playerAt b k).isSome = true := by
      rw [← processItem_isSome rand b actorId itemType targetId logs updates k, hkq]; rfl
    obtain ⟨p, hkp⟩ := Option.isSome_iff_exists.mp hsome
    have hp0 := hnn p (playerAt_mem hkp)
    by_cases hle : itemCount a0 itemType ≤ 0
    · obtain ⟨q', h1, _, h3, _⟩ :=
        processItem_fail_positions rand b actorId itemType targetId logs updates a0 ha hle k p hkp
      rw [hkq] at h1
      rw [Option.some.inj h1, h3]
      exact hp0 ty
    · obtain ⟨q', h1, h2, h3⟩ :=
        processItem_ok_positions rand b actorId itemType targetId logs updates a0 ha
          (not_le.mp hle) k p hkp
      rw [hkq] at h1
      rw [Option.some.inj h1]
      by_cases hki : k = playerIndex b actorId
      · have hpa : p = a0 := by
          rw [hki, hidx] at hkp; exact (Option.some.inj hkp).symm
        by_cases hty : ty = itemType
        · rw [hty, (h2 hki).1, hpa]
          have := not_le.mp hle
          omega
        · rw [(h2 hki).2 ty hty]; exact hp0 ty
      · rw [itemCount_of_items_eq (h3 hki)]; exact hp0 ty

/-- C13 on a stocked actor: with no defense boost the use fails, with one attack boost it
succeeds and leaves her none, whether or not the boost takes. -/
theorem item_consumption_witness :
    (processItem always20 stockedDuel 1 "defense_boost" none [] ⟨none⟩).ok = false
    ∧ (processItem always20 stockedDuel 1 "attack_boost" none [] ⟨none⟩).ok = true
    ∧ ∃ q, playerAt (processItem always20 stockedDuel 1 "attack_boost" none [] ⟨none⟩).battle 0
          = some q ∧ itemCount q "attack_boost" = 0 := by
  have h1 := (item_consumption always20 stockedDuel 1 "defense_boost" none [] ⟨none⟩
    stockedAnn (by decide)).1 (by decide)
  have h2 := (item_consumption always20 stockedDuel 1 "attack_boost" none [] ⟨none⟩
    stockedAnn (by decide)).2.1 (by decide)
  obtain ⟨q, hq, hc, _⟩ := h2.2 0 stockedAnn (by decide)
  exact ⟨h1.1, h2.1, q, hq, by rw [(hc (by decide)).1]; decide⟩

/-! ## Dittany -/

/-- The recipient the code resolves, after the actor's items block has been filled in, is
the recipient resolved on the record before the call, up to that items block. -/
theorem healTarget_default (b : Battle) (actorId : Nat) (targetId : Option Nat) (a0 : Player)
    (ha : findPlayer b actorId = some a0) :
    healTarget (findPlayer?
        (mutatePlayer b actorId (fun p => { p with items := some (p.items.getD defaultItems) }))
        targetId) { a0 with items := some (a0.items.getD defaultItems) }
      = specRecipient b a0 targetId
    ∨ healTarget (findPlayer?
        (mutatePlayer b actorId (fun p => { p with items := some (p.items.getD defaultItems) }))
        targetId) { a0 with items := some (a0.items.getD defaultItems) }
      = { specRecipient b a0 targetId with
          items := some ((specRecipient b a0 targetId).items.getD defaultItems) } := by
  cases targetId with
  | none => right; rfl
  | some j =>
    simp only [findPlayer?, specRecipient]
    rw [findPlayer_mutatePlayer b actorId j (fun p =>
      { p with items := some (p.items.getD defaultItems) }) (fun _ => rfl)]
    by_cases hj : j = actorId
    · subst hj
      simp only [if_true, ha, Option.map_some', healTarget, if_true]
      right; trivial
    · simp only [hj, if_false]
      cases ht : findPlayer b j with
      | none => right; rfl
      | some t =>
        by_cases hteam : t.team = a0.team
        · left; simp only [healTarget, hteam, if_true]
        · right; simp only [healTarget, hteam, if_false]

/-- The outcome of a dittany use with a positive count. -/
theorem processItem_dittany_ok (rand : Nat → ℚ) (b : Battle) (actorId : Nat)
    (targetId : Option Nat) (logs : List LogEntry) (updates : Updates) (a0 : Player)
    (ha : findPlayer b actorId = some a0) (hpos : 0 < itemCount a0 "dittany")
    (r : Player) (hr : r = specRecipient b a0 targetId) :
    processItem rand b actorId "dittany" targetId logs updates
      = ⟨true,
          mutatePlayer
            (mutatePlayer
              (mutatePlayer b actorId
                (fun p => { p with items := some (p.items.getD defaultItems) }))
              actorId
              (fun p =>
                { p with items :=
                    p.items.map (fun it => { it with dittany := it.dittany.map (· - 1) }) }))
            r.id (fun p => { p with hp := Min.min (maxHpOr100 r) (r.hp + 10) }),
          logs ++ [⟨"heal", r.name ++ " HP 10 회복"⟩],
          updates.setHp r.id (Min.min (maxHpOr100 r) (r.hp + 10)), 0⟩ := by
  have hcount : ¬ numOr0 (a0.items.getD defaultItems).dittany ≤ 0 := by
    have : itemCount a0 "dittany" = numOr0 (a0.items.getD defaultItems).dittany := by
      simp [itemCount]
    rw [← this]; exact not_le.mpr hpos
  unfold processItem
  rw [ha]
  simp only [hcount, if_true, if_false]
  rcases healTarget_default b actorId targetId a0 ha with h | h
  · rw [h, ← hr]
  · rw [h, ← hr]
    rfl

theorem findPlayer_specRecipient (b : Battle) (actorId : Nat) (targetId : Option Nat)
    (a0 : Player) (ha : findPlayer b actorId = some a0) :
    findPlayer b (specRecipient b a0 targetId).id = some (specRecipient b a0 targetId) :=
  findPlayer_healTarget b actorId targetId a0 ha

/-- The outcome of a dittany use with a positive count, with the cap written as the code
computes it. -/
theorem dittany_outcome (rand : Nat → ℚ) (b : Battle) (actorId : Nat)
    (targetId : Option Nat) (logs : List LogEntry) (updates : Updates) (a0 : Player)
    (ha : findPlayer b actorId = some a0) (hpos : 0 < itemCount a0 "dittany") :
    (processItem rand b actorId "dittany" targetId logs updates).ok = true
    ∧ findPlayer b (specRecipient b a0 targetId).id = some (specRecipient b a0 targetId)
    ∧ (findPlayer (processItem rand b actorId "dittany" targetId logs updates).battle
          (specRecipient b a0 targetId).id).map (fun p => p.hp)
        = some (Min.min (maxHpOr100 (specRecipient b a0 targetId))
            ((specRecipient b a0 targetId).hp + 10))
    ∧ (∀ m, (specRecipient b a0 targetId).maxHp = some m → m ≠ 0 →
        maxHpOr100 (specRecipient b a0 targetId) = m)
    ∧ (∀ k, k ≠ playerIndex b (specRecipient b a0 targetId).id →
        (playerAt (processItem rand b actorId "dittany" targetId logs updates).battle k).map
            (fun p => p.hp) = (playerAt b k).map (fun p => p.hp))
    ∧ (processItem rand b actorId "dittany" targetId logs updates).updates.getHp
          (specRecipient b a0 targetId).id
        = some (Min.min (maxHpOr100 (specRecipient b a0 targetId))
            ((specRecipient b a0 targetId).hp + 10))
    ∧ (∃ e : LogEntry, e.type = "heal"
        ∧ (processItem rand b actorId "dittany" targetId logs updates).logs = logs ++ [e]) := by
  have hfr := findPlayer_specRecipient b actorId targetId a0 ha
  rw [processItem_dittany_ok rand b actorId targetId logs updates a0 ha hpos _ rfl]
  refine ⟨rfl, hfr, ?_, ?_, ?_, ?_, ⟨_, rfl, rfl⟩⟩
  · simp only []
    rw [findPlayer_mutatePlayer_same, findPlayer_mutatePlayer, findPlayer_mutatePlayer, hfr]
    · split_ifs <;> rfl
    all_goals (intro p; rfl)
  · intro m hm hm0
    simp [maxHpOr100, hm, hm0]
  · intro k hk
    simp (disch := (intro _; rfl)) only [playerAt_mutatePlayer, playerIndex_mutatePlayer]
    simp only [hk, if_false]
    split_ifs <;> cases playerAt b k <;> rfl
  · simp [Updates.setHp, Updates.getHp]

/-! ## Failure -/

theorem modifyFirst_fixed (ps : List Player) (i : Nat) (f : Player → Player)
    (h : ∀ p, ps.find? (fun p => decide (p.id = i)) = some p → f p = p) :
    modifyFirst ps i f = ps := by
  induction ps with
  | nil => rfl
  | cons p rest ih =>
    by_cases hp : p.id = i
    · simp only [modifyFirst, hp, if_true]
      rw [h p (by simp [List.find?_cons, hp])]
    · simp only [modifyFirst, hp, if_false]
      rw [ih (fun q hq => h q (by simpa [List.find?_cons, hp] using hq))]

/-- A rewrite that fixes the player it finds, or finds none, leaves the record as it is. -/
theorem mutatePlayer_fixed (b : Battle) (i : Nat) (f : Player → Player)
    (h : ∀ p, findPlayer b i = some p → f p = p) : mutatePlayer b i f = b := by
  unfold findPlayer playersOf at h
  unfold mutatePlayer
  cases hps : b.players with
  | none =>
    cases b
    simp only at hps
    subst hps
    rfl
  | some ps =>
    rw [hps] at h
    simp only [Option.getD_some] at h
    cases b
    simp only at hps
    subst hps
    simp only [Option.map_some', modifyFirst_fixed ps i f h]

theorem processAttack_ok_false (rand : Nat → ℚ) (b : Battle) (actorId targetId : Nat)
    (logs : List LogEntry) (updates : Updates)
    (h : (processAttack rand b actorId targetId logs updates).ok = false) :
    ∃ msg : String, processAttack rand b actorId targetId logs updates
      = ⟨false, b, logs ++ [⟨"error", msg⟩], updates, 0⟩ := by
  cases ha : findPlayer b actorId with
  | none => exact ⟨"대상 오류", by simp [processAttack, ha]⟩
  | some a =>
    cases ht : findPlayer b targetId with
    | none => exact ⟨"대상 오류", by simp [processAttack, ha, ht]⟩
    | some t =>
      by_cases hteam : a.team = t.team
      · exact ⟨"같은 팀은 공격할 수 없습니다", by simp [processAttack, ha, ht, hteam]⟩
      · by_cases h0 : t.hp ≤ 0
        · exact ⟨"쓰러진 대상은 공격할 수 없습니다", by simp [processAttack, ha, ht, hteam, h0]⟩
        · exfalso
          by_cases hev : (_readStats t).agility + _randD20 (rand 1)
              ≥ (_readStats a).attack + _randD20 (rand 0)
          · rw [processAttack_miss rand b actorId targetId logs updates a t ha ht hteam
              (not_le.mp h0) hev] at h
            cases h
          · rw [processAttack_hit rand b actorId targetId logs updates a t ha ht hteam
              (not_le.mp h0) (not_le.mp hev) _ _ rfl rfl] at h
            cases h

theorem processItem_ok_false (rand : Nat → ℚ) (b : Battle) (actorId : Nat)
    (itemType : String) (targetId : Option Nat) (logs : List LogEntry) (updates : Updates)
    (a0 : Player) (ha : findPlayer b actorId = some a0)
    (h : (processItem rand b actorId itemType targetId logs updates).ok = false) :
    itemCount a0 itemType ≤ 0 := by
  by_contra hpos
  rw [processItem_ok_of_pos rand b actorId itemType targetId logs updates a0 ha
    (not_le.mp hpos)] at h
  cases h

/-- C15 as amended. Whenever `processAttack` returns false, or `processItem` returns false
for an existing actor, exactly one log entry, of type "error", has been appended.
Whenever `processAttack`, `processDefend`, `processPass` or `processDodge` returns false
the battle record is unchanged; whenever `processItem` returns false the record is
unchanged but for a missing items block of the actor, which has become
`{dittany:0, attack_boost:0, defense_boost:0}`: with an unknown actor, or an actor that
has an items block, the record is unchanged. -/
theorem failure_contract (b : Battle) :
    (∀ (rand : Nat → ℚ) (actorId targetId : Nat) (logs : List LogEntry) (updates : Updates),
      (processAttack rand b actorId targetId logs updates).ok = false →
        (∃ e : LogEntry, e.type = "error"
          ∧ (processAttack rand b actorId targetId logs updates).logs = logs ++ [e])
        ∧ (processAttack rand b actorId targetId logs updates).battle = b)
    ∧ (∀ (actorId : Nat) (logs : List LogEntry),
      (processDefend b actorId logs).ok = false → (processDefend b actorId logs).battle = b)
    ∧ (∀ (actorId : Nat) (logs : List LogEntry),
      (processPass b actorId logs).ok = false → (processPass b actorId logs).battle = b)
    ∧ (∀ (actorId : Nat) (logs : List LogEntry),
      (processDodge b actorId logs).ok = false → (processDodge b actorId logs).battle = b)
    ∧ (∀ (rand : Nat → ℚ) (actorId : Nat) (itemType : String) (targetId : Option Nat)
        (logs : List LogEntry) (updates : Updates),
      (processItem rand b actorId itemType targetId logs updates).ok = false →
        (processItem rand b actorId itemType targetId logs updates).battle
          = mutatePlayer b actorId
              (fun p => { p with items := some (p.items.getD defaultItems) })
        ∧ (findPlayer b actorId = none →
            (processItem rand b actorId itemType targetId logs updates).battle = b)
        ∧ (∀ a0, findPlayer b actorId = some a0 →
            (∃ e : LogEntry, e.type = "error"
              ∧ (processItem rand b actorId itemType targetId logs updates).logs
                = logs ++ [e])
            ∧ (a0.items ≠ none →
              (processItem rand b actorId itemType targetId logs updates).battle = b))) := by
  refine ⟨?_, ?_, ?_, ?_, ?_⟩
  · intro rand actorId targetId logs updates h
    obtain ⟨msg, heq⟩ := processAttack_ok_false rand b actorId targetId logs updates h
    rw [heq]
    exact ⟨⟨⟨"error", msg⟩, rfl, rfl⟩, rfl⟩
  · intro actorId logs h
    unfold processDefend at h ⊢
    cases ha : findPlayer b actorId with
    | none => rfl
    | some a => rw [ha] at h; cases h
  · intro actorId logs _
    exact processPass_battle b actorId logs
  · intro actorId logs h
    unfold processDodge at h ⊢
    cases ha : findPlayer b actorId with
    | none => rfl
    | some a => rw [ha] at h; cases h
  · intro rand actorId itemType targetId logs updates h
    cases ha : findPlayer b actorId with
    | none =>
      have hb : mutatePlayer b actorId
          (fun p => { p with items := some (p.items.getD defaultItems) }) = b :=
        mutatePlayer_fixed b actorId _ (fun p hp => by rw [ha] at hp; cases hp)
      rw [processItem_unknown rand b actorId itemType targetId logs updates ha, hb]
      exact ⟨rfl, fun _ => rfl, fun a0 h0 => (by cases h0)⟩
    | some a0 =>
      have hle := processItem_ok_false rand b actorId itemType targetId logs updates a0 ha h
      obtain ⟨msg, heq⟩ :=
        processItem_fail rand b actorId itemType targetId logs updates a0 ha hle
      rw [heq]
      refine ⟨rfl, fun hn => (by cases hn), fun a1 h1 =>
        ⟨⟨⟨"error", msg⟩, rfl, rfl⟩, fun hit => ?_⟩⟩
      have h01 : a0 = a1 := Option.some.inj h1
      subst h01
      refine mutatePlayer_fixed b actorId _ (fun p hp => ?_)
      rw [ha] at hp
      have hpa : a0 = p := Option.some.inj hp
      subst hpa
      cases hi : a0.items with
      | none => exact absurd hi hit
      | some it =>
        cases a0
        simp only at hi
        subst hi
        rfl

/-- C15 as amended, on a same-team attack: false, one "error" entry, record unchanged. -/
theorem failure_contract_witness :
    (∃ e : LogEntry, e.type = "error"
      ∧ (processAttack always20 trio 1 3 [] ⟨none⟩).logs = [] ++ [e])
    ∧ (processAttack always20 trio 1 3 [] ⟨none⟩).battle = trio :=
  (failure_contract trio).1 always20 1 3 [] ⟨none⟩
    (by decide)

/-- C15, the counterexample: Ann has no items block; her dittany use returns false with
one "error" entry, and the record has changed: her items block is now all zeros. -/
theorem failed_item_use_changes_record :
    (processItem always20 duel 1 "dittany" none [] ⟨none⟩).ok = false
    ∧ (processItem always20 duel 1 "dittany" none [] ⟨none⟩).logs
      = [⟨"error", "디터니가 없습니다"⟩]
    ∧ (findPlayer duel 1).map (fun p => p.items) = some none
    ∧ (findPlayer (processItem always20 duel 1 "dittany" none [] ⟨none⟩).battle 1).map
        (fun p => p.items) = some (some ⟨some 0, some 0, some 0⟩)
    ∧ (processItem always20 duel 1 "dittany" none [] ⟨none⟩).battle ≠ duel := by
  decide

/-- With an unknown actor `processDefend`, `processPass`, `processDodge` and `processItem`
return false and append nothing to the log, where `processAttack` appends an "error"
entry. -/
theorem unknown_actor_is_silent :
    ((processDefend duel 7 []).ok = false ∧ (processDefend duel 7 []).logs = [])
    ∧ ((processPass duel 7 []).ok = false ∧ (processPass duel 7 []).logs = [])
    ∧ ((processDodge duel 7 []).ok = false ∧ (processDodge duel 7 []).logs = [])
    ∧ ((processItem always20 duel 7 "dittany" none [] ⟨none⟩).ok = false
      ∧ (processItem always20 duel 7 "dittany" none [] ⟨none⟩).logs = [])
    ∧ ((processAttack always20 duel 7 2 [] ⟨none⟩).ok = false
      ∧ (processAttack always20 duel 7 2 [] ⟨none⟩).logs = [⟨"error", "대상 오류"⟩]) := by
  decide

/-! ## The defend flag -/

/-- C16 as amended. `processDefend` on an existing actor returns true, sets that actor's
defending flag and changes nothing else in the record; a later valid attack against that
actor that connects (evade roll below attack roll) leaves the target's defending flag
clear, and one that is fully evaded leaves the flag as it was. -/
theorem defend_flag_consumed_on_hit (b : Battle) (actorId : Nat) (logs : List LogEntry)
    (a : Player) (ha : findPlayer b actorId = some a) :
    (processDefend b actorId logs).ok = true
    ∧ findPlayer (processDefend b actorId logs).battle actorId
        = some { a with _defend := true }
    ∧ (∀ k, k ≠ playerIndex b actorId →
        playerAt (processDefend b actorId logs).battle k = playerAt b k)
    ∧ { (processDefend b actorId logs).battle with players := b.players } = b
    ∧ (∀ (rand : Nat → ℚ) (b' : Battle) (attackerId : Nat) (logs' : List LogEntry)
        (updates : Updates) (att t : Player),
        findPlayer b' attackerId = some att → findPlayer b' actorId = some t →
        att.team ≠ t.team → 0 < t.hp →
        ((_readStats t).agility + _randD20 (rand 1)
            < (_readStats att).attack + _randD20 (rand 0) →
          (findPlayer (processAttack rand b' attackerId actorId logs' updates).battle
            actorId).map (fun p => p._defend) = some false)
        ∧ ((_readStats t).agility + _randD20 (rand 1)
            ≥ (_readStats att).attack + _randD20 (rand 0) →
          (findPlayer (processAttack rand b' attackerId actorId logs' updates).battle
            actorId).map (fun p => p._defend) = some t._defend)) := by
  refine ⟨?_, ?_, ?_, ?_, ?_⟩
  · simp only [processDefend, ha]
  · simp only [processDefend, ha]
    rw [findPlayer_mutatePlayer_same, ha]
    · rfl
    · intro p; rfl
  · intro k hk
    simp only [processDefend, ha, playerAt_mutatePlayer, hk, if_false]
  · simp only [processDefend, ha, mutatePlayer]
  · intro rand b' attackerId logs' updates att t hatt ht hteam hhp
    constructor
    · intro hconn
      rw [processAttack_hit rand b' attackerId actorId logs' updates att t hatt ht hteam hhp
        hconn _ _ rfl rfl]
      rw [findPlayer_of_players (b := mutatePlayer b' actorId _) (i := actorId) (by exact rfl),
        findPlayer_mutatePlayer_same, ht]
      · cases hd : t._defend <;> simp [hd]
      · intro p; rfl
    · intro hev
      rw [processAttack_miss rand b' attackerId actorId logs' updates att t hatt ht hteam hhp
        hev]
      simp only [ht, Option.map_some']

/-- C16 as amended, on the damage scenario: Bob takes the defense stance; Ann's critical
hit then leaves his flag clear. -/
theorem defend_flag_consumed_on_hit_witness :
    findPlayer duelDefended 2 = some { duelTarget with _defend := true }
    ∧ (findPlayer (processAttack always20 duelDefended 1 2 [] ⟨none⟩).battle 2).map
        (fun p => p._defend) = some false := by
  have h := defend_flag_consumed_on_hit duel 2 [] duelTarget (by decide)
  exact ⟨h.2.1, (h.2.2.2.2 always20 duelDefended 1 [] ⟨none⟩ duelAttacker
    { duelTarget with _defend := true } (by decide) (by decide) (by decide) (by decide)).1
    (by simp only [always20_roll]; decide)⟩

/-- C16, the counterexample: Bob, hp 100, takes the defense stance; Ann's valid attack is
fully evaded (attack roll 5 + 1, evade roll 1 + 20), and after `processAttack` has
returned true Bob's defending flag is still set. -/
theorem defend_flag_survives_evasion :
    (processDefend duel 2 []).ok = true
    ∧ (findPlayer duelDefended 2).map (fun p => p._defend) = some true
    ∧ (processAttack lowHigh duelDefended 1 2 [] ⟨none⟩).ok = true
    ∧ (findPlayer (processAttack lowHigh duelDefended 1 2 [] ⟨none⟩).battle 2).map
        (fun p => p._defend) = some true := by
  have hmiss := processAttack_miss lowHigh duelDefended 1 2 [] ⟨none⟩ duelAttacker
    { duelTarget with _defend := true } (by decide) (by decide) (by decide) (by decide)
    (by rw [lowHigh_rolls.1, lowHigh_rolls.2]; decide)
  rw [hmiss]
  decide

/-! ## The last tie-breaks -/

/-- When the first five discriminators are all undecided, `determineWinner` returns A:
`first` falls back to `'A'`, so the agility sums are never compared. -/
theorem determineWinner_default (b : Battle)
    (halive : (getAlivePlayersInTeam b (some Team.A)).length
      = (getAlivePlayersInTeam b (some Team.B)).length)
    (hhp : hpSum b Team.A = hpSum b Team.B) (hl : b.lastAttackerTeam = none)
    (hc : b.currentTeam = none) (hf : b.firstTeam = none) (ho : b.turn.order[0]? = none) :
    determineWinner b = Team.A := by
  simp [determineWinner, halive, hhp, hl, hc, hf, ho]

/-- C17, the code at the failing input: equal living counts, equal hp sums, no
`lastAttackerTeam`, `currentTeam`, `firstTeam` or `turn.order[0]`; team B's agility sum is
5 against team A's 1, so the agility tie-break names B, and `determineWinner` returns A. -/
theorem agility_tiebreak_unreachable :
    (getAlivePlayersInTeam tiedBattle (some Team.A)).length
      = (getAlivePlayersInTeam tiedBattle (some Team.B)).length
    ∧ hpSum tiedBattle Team.A = hpSum tiedBattle Team.B
    ∧ tiedBattle.lastAttackerTeam = none ∧ tiedBattle.currentTeam = none
    ∧ tiedBattle.firstTeam = none ∧ tiedBattle.turn.order[0]? = none
    ∧ agiSum tiedBattle Team.A = 1 ∧ agiSum tiedBattle Team.B = 5
    ∧ specAgilityWinner tiedBattle = Team.B
    ∧ determineWinner tiedBattle = Team.A := by
  decide

/-! ## The attack boost -/

theorem boostedDuel_attacker :
    findPlayer boostedDuel 1
      = some { stockedAnn with items := some ⟨some 1, some 0, some 0⟩, _atkBoost := true }
    ∧ findPlayer boostedDuel 2 = some duelTarget := by
  have hb : boostedDuel
      = mutatePlayer
          (mutatePlayer
            (mutatePlayer stockedDuel 1
              (fun p => { p with items := some (p.items.getD defaultItems) }))
            1 (fun p =>
              { p with items :=
                  p.items.map (fun it => { it with attack_boost := it.attack_boost.map (· - 1) }) }))
          1 (fun p => { p with _atkBoost := true }) := by
    unfold boostedDuel processItem
    rw [show findPlayer stockedDuel 1 = some stockedAnn by decide]
    have hdraw : alwaysZero 0 < 1 / 10 := by norm_num [alwaysZero]
    simp only [show ¬ ("attack_boost" = "dittany") by decide, if_false, if_true,
      show ¬ numOr0 (stockedAnn.items.getD defaultItems).attack_boost ≤ 0 by decide, hdraw]
  rw [hb]
  decide

/-- C18, the code at the failing input: Ann's attack boost has succeeded and set her
`_atkBoost` flag; her next attack connects with every die at 20.  The boosted formula of
the specification leaves Bob 4 hp; `processAttack` leaves him 52, the unboosted damage of
48, and Ann's flag is still set afterwards. -/
theorem attack_boost_not_applied :
    (processItem alwaysZero stockedDuel 1 "attack_boost" none [] ⟨none⟩).ok = true
    ∧ (findPlayer boostedDuel 1).map (fun p => p._atkBoost) = some true
    ∧ specBoostedHp (_readStats stockedAnn) (_readStats duelTarget) duelTarget._defend
        duelTarget.hp (_randD20 (always20 2)) (_randD20 (always20 3)) (_randD20 (always20 4))
      = 4
    ∧ (processAttack always20 boostedDuel 1 2 [] ⟨none⟩).ok = true
    ∧ (findPlayer (processAttack always20 boostedDuel 1 2 [] ⟨none⟩).battle 2).map
        (fun p => p.hp) = some 52
    ∧ (findPlayer (processAttack always20 boostedDuel 1 2 [] ⟨none⟩).battle 1).map
        (fun p => p._atkBoost) = some true := by
  have hok := processItem_ok_of_pos alwaysZero stockedDuel 1 "attack_boost" none [] ⟨none⟩
    stockedAnn (by decide) (by decide)
  have hd : specAttackDamage
      (_readStats { stockedAnn with items := some ⟨some 1, some 0, some 0⟩, _atkBoost := true })
      (_readStats duelTarget) duelTarget._defend
      (_randD20 (always20 2)) (_randD20 (always20 3)) (_randD20 (always20 4)) = 48 := by
    simp only [always20_roll]
    norm_num [specAttackDamage, _readStats, statsOf, _clamp, numOr0, stockedAnn, duelAttacker,
      duelTarget, mkPlayer]
  have hspec : specBoostedHp (_readStats stockedAnn) (_readStats duelTarget) duelTarget._defend
      duelTarget.hp (_randD20 (always20 2)) (_randD20 (always20 3)) (_randD20 (always20 4))
      = 4 := by
    simp only [always20_roll]
    norm_num [specBoostedHp, _readStats, statsOf, _clamp, numOr0, stockedAnn, duelAttacker,
      duelTarget, mkPlayer]
  have hhit := processAttack_hit always20 boostedDuel 1 2 [] ⟨none⟩ _ duelTarget
    boostedDuel_attacker.1 boostedDuel_attacker.2 (by decide) (by decide)
    (by simp only [always20_roll]; decide) 48 52 hd.symm (by decide)
  refine ⟨hok, by rw [boostedDuel_attacker.1]; rfl, hspec, by rw [hhit], ?_, ?_⟩
  · rw [hhit, findPlayer_of_players (b := mutatePlayer boostedDuel 2 _) (i := 2) (by exact rfl),
      findPlayer_mutatePlayer_same, boostedDuel_attacker.2]
    · rfl
    · intro p; rfl
  · rw [hhit, findPlayer_of_players (b := mutatePlayer boostedDuel 2 _) (i := 1) (by exact rfl),
      findPlayer_mutatePlayer_other _ _ _ _ _ (by decide), boostedDuel_attacker.1]
    · rfl
    · intro p; rfl

/-! ## Elimination, and the flags of advancePhase -/

theorem getAlive_length_pos (b : Battle) (team : Team)
    (h : ∃ p ∈ playersOf b, p.team = team ∧ 0 < p.hp) :
    0 < (getAlivePlayersInTeam b (some team)).length := by
  rw [Nat.pos_iff_ne_zero]
  intro h0
  obtain ⟨p, hp, ht, hpos⟩ := h
  exact (getAlive_length_eq_zero b team).mp h0 p hp ht hpos

/-- C19. An eliminated team never wins: when one team has a player with hp above 0 and the
other team has none, `isBattleOver` returns true and `determineWinner` returns the
surviving team, whatever the hp sums, `lastAttackerTeam`, `currentTeam`, `firstTeam`,
`turn.order` and the stats. -/
theorem sole_survivor_wins (b : Battle) (team : Team)
    (hAlive : ∃ p ∈ playersOf b, p.team = team ∧ 0 < p.hp)
    (hDead : ∀ p ∈ playersOf b, p.team ≠ team → ¬ 0 < p.hp) :
    isBattleOver b = true ∧ determineWinner b = team := by
  have hpos := getAlive_length_pos b team hAlive
  cases team with
  | A =>
    have hB : (getAlivePlayersInTeam b (some Team.B)).length = 0 :=
      (getAlive_length_eq_zero b Team.B).mpr
        (fun p hp ht => hDead p hp (by rw [ht]; decide))
    constructor
    · simp [isBattleOver, hB]
    · have hne : (getAlivePlayersInTeam b (some Team.A)).length
          ≠ (getAlivePlayersInTeam b (some Team.B)).length := by omega
      have hgt : (getAlivePlayersInTeam b (some Team.A)).length
          > (getAlivePlayersInTeam b (some Team.B)).length := by omega
      simp only [determineWinner, hne, ne_eq, not_false_eq_true, if_true, hgt]
  | B =>
    have hA : (getAlivePlayersInTeam b (some Team.A)).length = 0 :=
      (getAlive_length_eq_zero b Team.A).mpr
        (fun p hp ht => hDead p hp (by rw [ht]; decide))
    constructor
    · simp [isBattleOver, hA]
    · have hne : (getAlivePlayersInTeam b (some Team.A)).length
          ≠ (getAlivePlayersInTeam b (some Team.B)).length := by omega
      have hgt : ¬ (getAlivePlayersInTeam b (some Team.A)).length
          > (getAlivePlayersInTeam b (some Team.B)).length := by omega
      simp only [determineWinner, hne, ne_eq, not_false_eq_true, if_true, hgt, if_false]

/-- C19 on the damage scenario: Bob is defeated while `lastAttackerTeam`, `currentTeam`
and `firstTeam` all name his team B; the battle is over and team A wins. -/
theorem sole_survivor_wins_witness :
    duelWon.lastAttackerTeam = some Team.B ∧ duelWon.currentTeam = some Team.B
    ∧ isBattleOver duelWon = true ∧ determineWinner duelWon = Team.A :=
  ⟨rfl, rfl, sole_survivor_wins duelWon Team.A ⟨duelAttacker, by decide, by decide, by decide⟩
    (by decide)⟩

/-- C20. The two flags returned by `advancePhase` always coincide: `turnComplete` equals
`phaseComplete`, both are true exactly when every player of `currentTeam` with hp above 0
is in `turn.acted[currentTeam]` (vacuously so when the team has no living member), and
whenever that requirement is met the transition occurs: `phaseIndex` has moved up by 1. -/
theorem advancePhase_flags_coincide (b : Battle) :
    (advancePhase b).2.turnComplete = (advancePhase b).2.phaseComplete
    ∧ ((advancePhase b).2.phaseComplete = true
      ↔ ∀ p ∈ playersOf b, some p.team = b.currentTeam → 0 < p.hp →
          p.id ∈ actedOf b b.currentTeam)
    ∧ ((∀ p ∈ playersOf b, some p.team = b.currentTeam → 0 < p.hp →
          p.id ∈ actedOf b b.currentTeam) →
        (advancePhase b).1.turn.phaseIndex = b.turn.phaseIndex + 1)
    ∧ ((∀ p ∈ playersOf b, some p.team = b.currentTeam → ¬ 0 < p.hp) →
        (advancePhase b).2 = ⟨true, true⟩) := by
  by_cases hc : ((getAlivePlayersInTeam b (getCurrentActiveTeam b)).map (fun p => p.id)).all
      (fun id => decide (id ∈ actedOf b (getCurrentActiveTeam b))) = true
  · have hreq := (turnComplete_iff b).mp hc
    have heq : (advancePhase b).2 = ⟨true, true⟩ := by
      unfold advancePhase; simp only [hc, if_true]
    refine ⟨by rw [heq], ⟨fun _ => hreq, fun _ => by rw [heq]⟩, fun _ => ?_, fun _ => heq⟩
    · unfold advancePhase
      simp only [hc, if_true]
      split_ifs <;> rfl
  · have hreq : ¬ ∀ p ∈ playersOf b, some p.team = b.currentTeam → 0 < p.hp →
        p.id ∈ actedOf b b.currentTeam := fun h => hc ((turnComplete_iff b).mpr h)
    have heq : advancePhase b = (b, ⟨false, false⟩) := by
      unfold advancePhase; simp only [hc, Bool.false_eq_true, if_false]
    refine ⟨by rw [heq], ⟨fun h => ?_, fun h => absurd h hreq⟩, fun h => absurd h hreq,
      fun h => absurd (fun p hp ht hpos => absurd hpos (h p hp ht)) hreq⟩
    rw [heq] at h
    cases h

/-! ## Stats that are not numbers -/

theorem js_clamp_int (n : Int) (lo hi : Int) :
    Js._clamp (JsNum.int n) lo hi = JsNum.int (_clamp n lo hi) := rfl

theorem js_numberOr0_ofOption (x : Option Int) :
    Js.numberOr0 (RawStat.ofOption x) = JsNum.int (numOr0 x) := by
  cases x <;> rfl

/-- On a stat block of integers and missing entries, `_readStats` over JavaScript numbers
returns the integers of `_readStats`. -/
theorem js_readStats_numeric (p : Player) :
    Js._readStats (p.stats.map Stats.toRaw) = (_readStats p).toJs := by
  cases hs : p.stats with
  | none => simp [Js._readStats, _readStats, statsOf, hs, ReadStats.toJs, Js.numberOr0,
      js_clamp_int, numOr0]
  | some s =>
    simp [Js._readStats, _readStats, statsOf, hs, ReadStats.toJs, Stats.toRaw,
      js_numberOr0_ofOption, js_clamp_int]

/-- On integer stats, the hp computation over JavaScript numbers is the one of
`processAttack`: `none` on a full evasion, `max(0, hp - dmg)` otherwise. -/
theorem js_processAttackHp_numeric (rand : Nat → ℚ) (sa st : ReadStats) (d : Bool) (hp : Int) :
    Js.processAttackHp rand sa.toJs st.toJs d hp
      = if st.agility + _randD20 (rand 1) ≥ sa.attack + _randD20 (rand 0) then none
        else some (JsNum.int (Max.max 0 (hp - specAttackDamage sa st d
          (_randD20 (rand 2)) (_randD20 (rand 3)) (_randD20 (rand 4))))) := by
  cases d <;>
    simp only [Js.processAttackHp, ReadStats.toJs, JsNum.add, JsNum.ge, decide_eq_true_eq,
      Js.isCrit, JsNum.sub, JsNum.max, JsNum.mul, specAttackDamage, if_true, if_false,
      Bool.false_eq_true] <;>
    split_ifs <;> simp only [mul_comm]

/-- On the players of the integer model the two embeddings agree: for a valid attack that
connects, the hp computed over JavaScript numbers is the hp `processAttack` leaves on the
target, and a full evasion is a full evasion. -/
theorem js_processAttackHp_agrees (rand : Nat → ℚ) (b : Battle) (actorId targetId : Nat)
    (logs : List LogEntry) (updates : Updates) (a t : Player)
    (ha : findPlayer b actorId = some a) (ht : findPlayer b targetId = some t)
    (hteam : a.team ≠ t.team) (hhp : 0 < t.hp) :
    ((_readStats t).agility + _randD20 (rand 1) < (_readStats a).attack + _randD20 (rand 0) →
      (findPlayer (processAttack rand b actorId targetId logs updates).battle targetId).map
          (fun p => JsNum.int p.hp)
        = Js.processAttackHp rand (Js._readStats (a.stats.map Stats.toRaw))
            (Js._readStats (t.stats.map Stats.toRaw)) t._defend t.hp)
    ∧ ((_readStats t).agility + _randD20 (rand 1) ≥ (_readStats a).attack + _randD20 (rand 0) →
      Js.processAttackHp rand (Js._readStats (a.stats.map Stats.toRaw))
          (Js._readStats (t.stats.map Stats.toRaw)) t._defend t.hp = none) := by
  rw [js_readStats_numeric, js_readStats_numeric, js_processAttackHp_numeric]
  constructor
  · intro hconn
    rw [if_neg (not_le.mpr hconn),
      processAttack_hit rand b actorId targetId logs updates a t ha ht hteam hhp hconn _ _
        rfl rfl,
      findPlayer_of_players (b := mutatePlayer b targetId _) (i := targetId) (by exact rfl),
      findPlayer_mutatePlayer_same, ht]
    · rfl
    · intro p; rfl
  · intro hev
    rw [if_pos hev]

/-- C5, the code at the failing input: for the stat block `{attack:'abc', defense:3,
luck:9}`, `_readStats` returns attack `NaN`, which lies in no range, next to defense 3,
agility 1 and luck 5; the same holds of every stat block with a non-numeric attack. -/
theorem readStats_nan_on_non_numeric :
    Js._readStats (some mixedStats) = ⟨JsNum.nan, JsNum.int 3, JsNum.int 1, JsNum.int 5⟩
    ∧ (¬ ∃ n : Int, (Js._readStats (some mixedStats)).attack = JsNum.int n ∧ 1 ≤ n ∧ n ≤ 5)
    ∧ ∀ s : RawStats, s.attack = RawStat.nonNumeric →
        (Js._readStats (some s)).attack = JsNum.nan := by
  refine ⟨by decide, ?_, ?_⟩
  · rintro ⟨n, hn, _⟩
    have : (Js._readStats (some mixedStats)).attack = JsNum.nan := by decide
    rw [this] at hn
    cases hn
  · intro s hs
    simp [Js._readStats, hs, Js.numberOr0, Js._clamp, JsNum.min, JsNum.max]

/-- An attacker whose attack is `NaN` never misses and writes `NaN` to the target's hp. -/
theorem js_processAttackHp_nan (rand : Nat → ℚ) (sa st : ReadStatsJs) (d : Bool) (hp : Int)
    (h : sa.attack = JsNum.nan) : Js.processAttackHp rand sa st d hp = some JsNum.nan := by
  simp only [Js.processAttackHp, h, JsNum.add, JsNum.ge]
  cases hst : st.agility <;> cases hdf : st.defense <;> cases d <;>
    simp [JsNum.sub, JsNum.max, JsNum.mul]

/-- C4, the code at the failing input: the attacker's stat block is `{attack:'abc'}`, the
target has 100 of 100 hp and is not defending, every die rolls 20.  The attack roll is
`NaN`, so the attack is not evaded, the damage is `NaN`, and the hp written to the target
is `NaN`, which is not between 0 and 100; the same holds for every target, every hp and
every dice. -/
theorem nan_attack_breaks_hp_bound :
    (Js._readStats (some abcStats)).attack = JsNum.nan
    ∧ Js.hpInBound (JsNum.int duelTarget.hp) 100
    ∧ Js.processAttackHp always20 (Js._readStats (some abcStats))
        (_readStats duelTarget).toJs duelTarget._defend duelTarget.hp = some JsNum.nan
    ∧ ¬ Js.hpInBound JsNum.nan 100
    ∧ ∀ (rand : Nat → ℚ) (st : ReadStatsJs) (d : Bool) (hp : Int),
        Js.processAttackHp rand (Js._readStats (some abcStats)) st d hp = some JsNum.nan :=
  ⟨by decide, ⟨by decide, by decide⟩, js_processAttackHp_nan _ _ _ _ _ (by decide), fun h => h,
    fun rand st d hp => js_processAttackHp_nan rand _ st d hp (by decide)⟩

/-! ## The tie-break chain in the specification's terms -/

/-- C6. Winner tie-break chain, discriminators 1 to 5: `determineWinner` returns the team
with strictly more living members (players with hp above 0) if the counts differ;
otherwise the team with the strictly higher sum of hp over all its members if the sums
differ; otherwise `lastAttackerTeam` if set; otherwise `currentTeam` if set; otherwise
`firstTeam` if set; otherwise `turn.order[0]`.  It is a function of the battle record
alone. -/
theorem determineWinner_chain (b : Battle) :
    (specAliveCount b Team.A > specAliveCount b Team.B → determineWinner b = Team.A)
    ∧ (specAliveCount b Team.A < specAliveCount b Team.B → determineWinner b = Team.B)
    ∧ (specAliveCount b Team.A = specAliveCount b Team.B →
      (specHpTotal b Team.A > specHpTotal b Team.B → determineWinner b = Team.A)
      ∧ (specHpTotal b Team.A < specHpTotal b Team.B → determineWinner b = Team.B)
      ∧ (specHpTotal b Team.A = specHpTotal b Team.B →
        (∀ l, b.lastAttackerTeam = some l → determineWinner b = l)
        ∧ (b.lastAttackerTeam = none →
          (∀ c, b.currentTeam = some c → determineWinner b = c)
          ∧ (b.currentTeam = none →
            (∀ f, b.firstTeam = some f → determineWinner b = f)
            ∧ (b.firstTeam = none →
              ∀ o, b.turn.order[0]? = some o → determineWinner b = o))))) := by
  have hcount : ∀ team, (getAlivePlayersInTeam b (some team)).length
      = specAliveCount b team := by
    intro team
    unfold getAlivePlayersInTeam specAliveCount
    rw [List.countP_eq_length_filter]
    congr 1
    apply List.filter_congr
    intro p _
    simp
  have hsum : ∀ team, hpSum b team = specHpTotal b team := by
    intro team
    unfold hpSum specHpTotal
    rw [foldl_add_eq_sum]
    simp
  simp only [← hcount, ← hsum]
  exact determineWinner_chain_code b

/-- C6 on three battles: two living members of team A against one of team B give A;
one living member each with hp sums 10 against 100 give B, although `currentTeam` is A;
and the scenario, equal counts, equal sums, no `lastAttackerTeam` and `currentTeam` B,
gives B. -/
theorem determineWinner_chain_witness :
    (specAliveCount stockedDuel Team.A = 2 ∧ specAliveCount stockedDuel Team.B = 1
      ∧ determineWinner stockedDuel = Team.A)
    ∧ (specHpTotal skirmish Team.A = 10 ∧ specHpTotal skirmish Team.B = 100
      ∧ skirmish.currentTeam = some Team.A ∧ determineWinner skirmish = Team.B)
    ∧ determineWinner duelB = Team.B :=
  ⟨⟨by decide, by decide, (determineWinner_chain stockedDuel).1 (by decide)⟩,
    ⟨by decide, by decide, by decide,
      ((determineWinner_chain skirmish).2.2 (by decide)).2.1 (by decide)⟩,
    ((((determineWinner_chain duelB).2.2 (by decide)).2.2 (by decide)).2 (by decide)).1
      Team.B (by decide)⟩

/-! ## The cap of a dittany -/

/-- C14 as amended. For an existing actor with a positive dittany count and every
`targetId` (absent and unknown included), the recipient is the player named by `targetId`
when it exists and is on the actor's team and the actor otherwise; after
`processItem(actor, 'dittany', targetId)` the recipient's hp is `min(M, old hp + 10)`,
where `M` is the recipient's `maxHp` when that is a non-zero integer and 100 when `maxHp`
is absent or 0; `updates.hp[recipient.id]` is the new hp, the hp at every other position
is unchanged, one "heal" entry is appended and the call returns true. -/
theorem dittany_heals_recipient (rand : Nat → ℚ) (b : Battle) (actorId : Nat)
    (targetId : Option Nat) (logs : List LogEntry) (updates : Updates) (a0 : Player)
    (ha : findPlayer b actorId = some a0) (hpos : 0 < itemCount a0 "dittany") :
    (processItem rand b actorId "dittany" targetId logs updates).ok = true
    ∧ findPlayer b (specRecipient b a0 targetId).id = some (specRecipient b a0 targetId)
    ∧ (∀ m, (specRecipient b a0 targetId).maxHp = some m → m ≠ 0 →
        (findPlayer (processItem rand b actorId "dittany" targetId logs updates).battle
            (specRecipient b a0 targetId).id).map (fun p => p.hp)
          = some (Min.min m ((specRecipient b a0 targetId).hp + 10))
        ∧ (processItem rand b actorId "dittany" targetId logs updates).updates.getHp
            (specRecipient b a0 targetId).id
          = some (Min.min m ((specRecipient b a0 targetId).hp + 10)))
    ∧ (((specRecipient b a0 targetId).maxHp = none
          ∨ (specRecipient b a0 targetId).maxHp = some 0) →
        (findPlayer (processItem rand b actorId "dittany" targetId logs updates).battle
            (specRecipient b a0 targetId).id).map (fun p => p.hp)
          = some (Min.min 100 ((specRecipient b a0 targetId).hp + 10))
        ∧ (processItem rand b actorId "dittany" targetId logs updates).updates.getHp
            (specRecipient b a0 targetId).id
          = some (Min.min 100 ((specRecipient b a0 targetId).hp + 10)))
    ∧ (∀ k, k ≠ playerIndex b (specRecipient b a0 targetId).id →
        (playerAt (processItem rand b actorId "dittany" targetId logs updates).battle k).map
            (fun p => p.hp) = (playerAt b k).map (fun p => p.hp))
    ∧ (∃ e : LogEntry, e.type = "heal"
        ∧ (processItem rand b actorId "dittany" targetId logs updates).logs = logs ++ [e]) := by
  obtain ⟨h1, h2, h3, _, h5, h6, h7⟩ :=
    dittany_outcome rand b actorId targetId logs updates a0 ha hpos
  refine ⟨h1, h2, fun m hm hm0 => ?_, fun hm => ?_, h5, h7⟩
  · have hcap : maxHpOr100 (specRecipient b a0 targetId) = m := by
      simp [maxHpOr100, hm, hm0]
    rw [← hcap]; exact ⟨h3, h6⟩
  · have hcap : maxHpOr100 (specRecipient b a0 targetId) = 100 := by
      rcases hm with h | h <;> simp [maxHpOr100, h]
    rw [← hcap]; exact ⟨h3, h6⟩

/-- C14 as amended, on three uses: a dittany aimed at the wounded team mate Amy (hp 95
of 100) leaves Amy at 100; aimed at the enemy Bob it is redirected to Ann herself and
Bob's hp stays 100; used by an Ann without a `maxHp` field, at hp 95, it leaves her at
the default cap of 100. -/
theorem dittany_heals_recipient_witness :
    (findPlayer (processItem always20 stockedDuel 1 "dittany" (some 3) [] ⟨none⟩).battle
        3).map (fun p => p.hp) = some 100
    ∧ specRecipient stockedDuel stockedAnn (some 2) = stockedAnn
    ∧ (findPlayer (processItem always20 stockedDuel 1 "dittany" (some 2) [] ⟨none⟩).battle
        2).map (fun p => p.hp) = some 100
    ∧ (findPlayer (processItem always20 noMaxBattle 1 "dittany" none [] ⟨none⟩).battle
        1).map (fun p => p.hp) = some 100 := by
  have h3 := dittany_heals_recipient always20 stockedDuel 1 (some 3) [] ⟨none⟩ stockedAnn
    (by decide) (by decide)
  have h2 := dittany_heals_recipient always20 stockedDuel 1 (some 2) [] ⟨none⟩ stockedAnn
    (by decide) (by decide)
  have h0 := dittany_heals_recipient always20 noMaxBattle 1 none [] ⟨none⟩ noMaxAnn
    (by decide) (by decide)
  have hr2 : specRecipient stockedDuel stockedAnn (some 2) = stockedAnn := by decide
  refine ⟨(h3.2.2.1 100 (by decide) (by decide)).1, hr2, ?_,
    (h0.2.2.2.1 (Or.inl (by decide))).1⟩
  have := h2.2.2.2.2.1 1 (by rw [hr2]; decide)
  rw [findPlayer_eq_playerAt]
  exact this

/-- C14, the counterexample: Ann has `maxHp` 0, hp 0 and one dittany, and heals herself.
The claim's `min(recipient.maxHp, old hp + 10)` is `min(0, 10) = 0`; the call returns
true and her hp is 10, the code having capped at `maxHp||100 = 100`. -/
theorem dittany_caps_at_100_for_zero_maxHp :
    findPlayer zeroMaxBattle 1 = some zeroMaxAnn
    ∧ zeroMaxAnn.maxHp = some 0 ∧ zeroMaxAnn.hp = 0 ∧ 0 < itemCount zeroMaxAnn "dittany"
    ∧ specRecipient zeroMaxBattle zeroMaxAnn none = zeroMaxAnn
    ∧ (processItem always20 zeroMaxBattle 1 "dittany" none [] ⟨none⟩).ok = true
    ∧ (findPlayer (processItem always20 zeroMaxBattle 1 "dittany" none [] ⟨none⟩).battle
        1).map (fun p => p.hp) = some 10
    ∧ Min.min (0 : Int) (zeroMaxAnn.hp + 10) = 0 := by
  decide

end BattleEngine
